import Mathlib

/-!
Verification of the dispatch / validation / error-normalization core of the
sisense-local-mcp-server repository, shallowly embedded in Lean 4.

The embedding follows the TypeScript source:
  - src/utils/json.ts        (safeStringify, safeParse)
  - src/utils/validation.ts  (zod schemas, validateInput and its wrappers)
  - src/services/sisense.ts  (SisenseService: constructor, isConfigured,
                              makeRequest, the eight domain methods)
  - src/server/mcp-server.ts (SisenseMCPServer: getAvailableResources,
                              readResource, callTool)
JavaScript platform facilities used by that code (JSON.parse, JSON.stringify,
the URL parser behind the schema library, string coercion, truthiness) are
modelled as executable Lean functions; their known restrictions are noted at
each definition.  The typed error classes (ConfigurationError,
ExternalServiceError, NetworkError and the context-carrying base class) are
imported by the service but their current definitions are not among the
available sources; they are modelled from the spec where so marked.
-/

namespace Sisense

/-! ## JavaScript values (tree-shaped)

Model of the JS values that flow through the validator and the dispatcher:
parsed JSON payloads, tool arguments and validation inputs.  Numbers are
modelled as integers; no claim involves fractional payloads. -/

inductive JsValue where
  | undef : JsValue
  | null : JsValue
  | bool (b : Bool) : JsValue
  | num (n : Int) : JsValue
  | str (s : String) : JsValue
  | arr (xs : List JsValue) : JsValue
  | obj (fields : List (String × JsValue)) : JsValue

/-- JS `typeof v === 'object'`: true for null, arrays and plain objects. -/
def typeofIsObject : JsValue → Bool
  | .null => true
  | .arr _ => true
  | .obj _ => true
  | _ => false

/-- JS truthiness: undefined, null, false, 0, and the empty string are falsy. -/
def jsTruthy : JsValue → Bool
  | .undef => false
  | .null => false
  | .bool b => b
  | .num n => n != 0
  | .str s => s != ""
  | .arr _ => true
  | .obj _ => true

def isJsString : JsValue → Bool
  | .str _ => true
  | _ => false

/-! Kernel-computable models of the JS string operations the source uses
(String.prototype.split, startsWith, replace of a trailing slash). -/

def isPrefixList : List Char → List Char → Bool
  | [], _ => true
  | _ :: _, [] => false
  | a :: as, b :: bs => a = b && isPrefixList as bs

def splitChars (sep : Char) : List Char → List (List Char)
  | [] => [[]]
  | c :: cs =>
    let rest := splitChars sep cs
    if c = sep then [] :: rest
    else
      match rest with
      | r :: rs => (c :: r) :: rs
      | [] => [[c]]

/-- JS s.split(sep) for a one-character separator. -/
def jsSplit (s : String) (sep : Char) : List String :=
  (splitChars sep s.toList).map String.mk

/-- JS s.startsWith(p). -/
def jsStartsWith (p s : String) : Bool :=
  isPrefixList p.toList s.toList

/-- Model of String.prototype.includes: pat occurs somewhere in s. -/
def containsSub (pat : String) (s : String) : Bool :=
  go pat.toList s.toList
where
  go (p : List Char) : List Char → Bool
    | [] => isPrefixList p []
    | c :: cs => isPrefixList p (c :: cs) || go p cs

/-- First binding of a key in an association list (JS own-property lookup). -/
def assocLookup (fields : List (String × JsValue)) (k : String) : Option JsValue :=
  match fields with
  | [] => none
  | (k1, v) :: rest => if k1 = k then some v else assocLookup rest k

/-- JS property access `v[k]`: undefined when absent or when the receiver is a
non-object primitive.  Access on null/undefined throws in JS and is handled
separately at the call sites that can encounter it. -/
def getField (v : JsValue) (k : String) : JsValue :=
  match v with
  | .obj fields => (assocLookup fields k).getD JsValue.undef
  | _ => JsValue.undef

/-- Model of JS `String(v)` coercion, used by template literals in the source. -/
def jsToString : JsValue → String
  | .undef => "undefined"
  | .null => "null"
  | .bool b => if b then "true" else "false"
  | .num n => toString n
  | .str s => s
  | .arr xs => String.intercalate "," (xs.map fun x =>
      match x with
      | .undef => ""
      | .null => ""
      | .str s => s
      | .bool b => if b then "true" else "false"
      | .num n => toString n
      | _ => "[object Object]")
  | .obj _ => "[object Object]"

/-! ## Model of the platform JSON.stringify on tree values

JSON.stringify(value, null, space), restricted to the value model above:
undefined becomes no output (omitted in objects, "null" in arrays); the
non-compact layout follows the ECMAScript gap/indent algorithm.  String
escaping covers quote, backslash and the common control characters. -/

def escapeChar (c : Char) : String :=
  if c = '"' then "\\\""
  else if c = '\\' then "\\\\"
  else if c = '\n' then "\\n"
  else if c = '\t' then "\\t"
  else if c = '\r' then "\\r"
  else String.singleton c

def escapeString (s : String) : String :=
  String.join (s.toList.map escapeChar)

def quoteStr (s : String) : String :=
  "\"" ++ escapeString s ++ "\""

/-- The gap string derived from the numeric space argument (clamped to 10). -/
def gapOf : Option Nat → String
  | none => ""
  | some n => String.mk (List.replicate (min n 10) ' ')

/-- Lay out already-rendered members with the current gap and indent:
compact when gap is empty, one member per line otherwise. -/
def wrapMembers (openB closeB gap cur : String) (items : List String) : String :=
  match items with
  | [] => openB ++ closeB
  | _ =>
    if gap = "" then
      openB ++ String.intercalate "," items ++ closeB
    else
      openB ++ "\n" ++ cur ++ gap ++
        String.intercalate (",\n" ++ cur ++ gap) items ++
        "\n" ++ cur ++ closeB

mutual

/-- JSON.stringify serialization of one value; none means the value
serializes to undefined (a function/symbol-free tree only yields none for
undefined itself). -/
def stringifyVal (gap cur : String) : JsValue → Option String
  | .undef => none
  | .null => some "null"
  | .bool b => some (if b then "true" else "false")
  | .num n => some (toString n)
  | .str s => some (quoteStr s)
  | .arr xs => some (wrapMembers "[" "]" gap cur (stringifyItems gap (cur ++ gap) xs))
  | .obj fields => some (wrapMembers "\x7b" "\x7d" gap cur (stringifyFields gap (cur ++ gap) fields))

/-- Array members: a member whose serialization is undefined prints as null. -/
def stringifyItems (gap cur : String) : List JsValue → List String
  | [] => []
  | v :: vs => ((stringifyVal gap cur v).getD "null") :: stringifyItems gap cur vs

/-- Object members: a member whose serialization is undefined is omitted. -/
def stringifyFields (gap cur : String) : List (String × JsValue) → List String
  | [] => []
  | (k, v) :: fs =>
    match stringifyVal gap cur v with
    | none => stringifyFields gap cur fs
    | some s => (quoteStr k ++ (if gap = "" then ":" else ": ") ++ s) :: stringifyFields gap cur fs

end

/-- Model of JSON.stringify(value, null, space) at the top level. -/
def jsonStringify (v : JsValue) (space : Option Nat) : Option String :=
  stringifyVal (gapOf space) "" v

/-! ## Model of the platform JSON.parse, and safeParse (src/utils/json.ts)

A fuel-based recursive-descent parser over the character list.  Restrictions
of the model (noted, not exercised by any claim): numbers are integer
numerals, and unicode escapes in strings are not interpreted. -/

def isJsonWs (c : Char) : Bool :=
  c = ' ' || c = '\n' || c = '\t' || c = '\r'

def skipWs : List Char → List Char
  | [] => []
  | c :: cs => if isJsonWs c then skipWs cs else c :: cs

/-- Parse the body of a JSON string literal after the opening quote. -/
def parseStringBody (fuel : Nat) : List Char → Option (String × List Char)
  | [] => none
  | c :: cs =>
    match fuel with
    | 0 => none
    | fuel + 1 =>
      if c = '"' then some ("", cs)
      else if c = '\\' then
        match cs with
        | [] => none
        | e :: cs1 =>
          let decoded : Option Char :=
            if e = '"' then some '"'
            else if e = '\\' then some '\\'
            else if e = '/' then some '/'
            else if e = 'n' then some '\n'
            else if e = 't' then some '\t'
            else if e = 'r' then some '\r'
            else none
          match decoded with
          | none => none
          | some d =>
            match parseStringBody fuel cs1 with
            | none => none
            | some (rest, rem) => some (String.singleton d ++ rest, rem)
      else
        match parseStringBody fuel cs with
        | none => none
        | some (rest, rem) => some (String.singleton c ++ rest, rem)

def digitsToNat (ds : List Char) : Nat :=
  ds.foldl (fun acc c => acc * 10 + (c.toNat - '0'.toNat)) 0

def takeDigits : List Char → List Char × List Char
  | [] => ([], [])
  | c :: cs =>
    if c.isDigit then
      let (ds, rest) := takeDigits cs
      (c :: ds, rest)
    else ([], c :: cs)

mutual

def parseJsonVal (fuel : Nat) (input : List Char) : Option (JsValue × List Char) :=
  match fuel with
  | 0 => none
  | fuel + 1 =>
    match skipWs input with
    | [] => none
    | c :: cs =>
      if c = 'n' then
        match cs with
        | 'u' :: 'l' :: 'l' :: rest => some (.null, rest)
        | _ => none
      else if c = 't' then
        match cs with
        | 'r' :: 'u' :: 'e' :: rest => some (.bool true, rest)
        | _ => none
      else if c = 'f' then
        match cs with
        | 'a' :: 'l' :: 's' :: 'e' :: rest => some (.bool false, rest)
        | _ => none
      else if c = '"' then
        match parseStringBody fuel cs with
        | none => none
        | some (s, rest) => some (.str s, rest)
      else if c = '[' then
        match skipWs cs with
        | ']' :: rest => some (.arr [], rest)
        | cs1 => match parseJsonItems fuel cs1 with
          | none => none
          | some (xs, rest) => some (.arr xs, rest)
      else if c = '\x7b' then
        match skipWs cs with
        | '\x7d' :: rest => some (.obj [], rest)
        | cs1 => match parseJsonMembers fuel cs1 with
          | none => none
          | some (fs, rest) => some (.obj fs, rest)
      else if c = '-' then
        match takeDigits cs with
        | ([], _) => none
        | (ds, rest) =>
          match rest with
          | r :: _ =>
            if r = '.' || r = 'e' || r = 'E' then none
            else some (.num (-(digitsToNat ds : Int)), rest)
          | [] => some (.num (-(digitsToNat ds : Int)), rest)
      else if c.isDigit then
        match takeDigits (c :: cs) with
        | ([], _) => none
        | (ds, rest) =>
          match rest with
          | r :: _ =>
            if r = '.' || r = 'e' || r = 'E' then none
            else some (.num (digitsToNat ds : Int), rest)
          | [] => some (.num (digitsToNat ds : Int), rest)
      else none

/-- Array items after the opening bracket (non-empty case). -/
def parseJsonItems (fuel : Nat) (input : List Char) : Option (List JsValue × List Char) :=
  match fuel with
  | 0 => none
  | fuel + 1 =>
    match parseJsonVal fuel input with
    | none => none
    | some (v, rest) =>
      match skipWs rest with
      | ',' :: rest1 =>
        match parseJsonItems fuel rest1 with
        | none => none
        | some (vs, rest2) => some (v :: vs, rest2)
      | ']' :: rest1 => some ([v], rest1)
      | _ => none

/-- Object members after the opening brace (non-empty case). -/
def parseJsonMembers (fuel : Nat) (input : List Char) : Option (List (String × JsValue) × List Char) :=
  match fuel with
  | 0 => none
  | fuel + 1 =>
    match skipWs input with
    | '"' :: cs =>
      match parseStringBody fuel cs with
      | none => none
      | some (k, rest) =>
        match skipWs rest with
        | ':' :: rest1 =>
          match parseJsonVal fuel rest1 with
          | none => none
          | some (v, rest2) =>
            match skipWs rest2 with
            | ',' :: rest3 =>
              match parseJsonMembers fuel rest3 with
              | none => none
              | some (fs, rest4) => some ((k, v) :: fs, rest4)
            | '\x7d' :: rest3 => some ([(k, v)], rest3)
            | _ => none
        | _ => none
    | _ => none

end

/-- Model of JSON.parse wrapped in try/catch: safeParse from src/utils/json.ts
returns null (here: none) on any parse failure. -/
def safeParse (text : String) : Option JsValue :=
  let cs := text.toList
  match parseJsonVal (cs.length + 1) cs with
  | none => none
  | some (v, rest) =>
    match skipWs rest with
    | [] => some v
    | _ => none

/-! ## JavaScript object graphs and safeStringify (src/utils/json.ts)

safeStringify receives an arbitrary JS value, which may be a cyclic object
graph.  Objects and arrays live in a heap and are referred to by address, so
reference identity (what the WeakSet in the source tracks) and cycles are
representable.  Functions and symbols are primitive leaves here. -/

inductive HVal where
  | undef : HVal
  | hnull : HVal
  | hbool (b : Bool) : HVal
  | hnum (n : Int) : HVal
  | hstr (s : String) : HVal
  | hfunc : HVal
  | hsym : HVal
  | href (a : Nat) : HVal
deriving DecidableEq

inductive HObj where
  | harr (elems : List HVal) : HObj
  | hobj (fields : List (String × HVal)) : HObj

abbrev Heap := List HObj

/-- A pending serialization task: one value, the members of an array, or the
members of an object. -/
inductive SerJob where
  | val (v : HVal)
  | items (vs : List HVal)
  | fields (fs : List (String × HVal))

/-- The outcome of a task: a value's rendering (none when it serializes to
undefined) or the rendered member list. -/
inductive SerOut where
  | one (s : Option String)
  | many (ss : List String)

/-- JSON.stringify with the circular-reference replacer of safeStringify:
a revisited address is replaced by the marker string before ordinary
serialization; a fresh address is added to the seen set and its members are
serialized.  Every recursive call consumes one unit of fuel, so the
recursion is structural; serFuel below always suffices (proved in the C7
theorem's development).  none is fuel exhaustion; the returned list is the
grown seen set. -/
def serGo (h : Heap) (gap : String) : Nat → List Nat → String → SerJob →
    Option (SerOut × List Nat)
  | 0, _, _, _ => none
  | fuel + 1, seen, cur, job =>
    match job with
    | .val v =>
      match v with
      | .undef => some (.one none, seen)
      | .hfunc => some (.one none, seen)
      | .hsym => some (.one none, seen)
      | .hnull => some (.one (some "null"), seen)
      | .hbool b => some (.one (some (if b then "true" else "false")), seen)
      | .hnum n => some (.one (some (toString n)), seen)
      | .hstr s => some (.one (some (quoteStr s)), seen)
      | .href a =>
        if a ∈ seen then
          some (.one (some (quoteStr "[Circular Reference]")), seen)
        else
          match h[a]? with
          | none => some (.one none, seen)
          | some (.harr elems) =>
            match serGo h gap fuel (a :: seen) (cur ++ gap) (.items elems) with
            | some (.many ss, seen1) =>
              some (.one (some (wrapMembers "[" "]" gap cur ss)), seen1)
            | _ => none
          | some (.hobj fields) =>
            match serGo h gap fuel (a :: seen) (cur ++ gap) (.fields fields) with
            | some (.many ss, seen1) =>
              some (.one (some (wrapMembers "\x7b" "\x7d" gap cur ss)), seen1)
            | _ => none
    | .items [] => some (.many [], seen)
    | .items (v :: vs) =>
      match serGo h gap fuel seen cur (.val v) with
      | some (.one s1, seen1) =>
        match serGo h gap fuel seen1 cur (.items vs) with
        | some (.many ss, seen2) => some (.many ((s1.getD "null") :: ss), seen2)
        | _ => none
      | _ => none
    | .fields [] => some (.many [], seen)
    | .fields ((k, v) :: fs) =>
      match serGo h gap fuel seen cur (.val v) with
      | some (.one s1, seen1) =>
        match serGo h gap fuel seen1 cur (.fields fs) with
        | some (.many ss, seen2) =>
          match s1 with
          | none => some (.many ss, seen2)
          | some s =>
            some (.many ((quoteStr k ++ (if gap = "" then ":" else ": ") ++ s) :: ss), seen2)
        | _ => none
      | _ => none

def rowLen : HObj → Nat
  | .harr elems => elems.length
  | .hobj fields => fields.length

def maxRowLen (h : Heap) : Nat :=
  (h.map rowLen).foldr max 0

/-- Fuel that always suffices for serGo on h (proved below). -/
def serFuel (h : Heap) : Nat :=
  1 + h.length * (2 + maxRowLen h)

/-- safeStringify from src/utils/json.ts over a heap value.  The branches
mirror the source: null/undefined via String(data), primitives via plain
JSON.stringify, functions and symbols as bracketed typeof markers, objects
via JSON.stringify with the seen-set replacer.  The catch-all fallback is
the source's catch branch; serTotal below shows the guarded serialization
never exhausts its fuel, and a real object serialization never returns
undefined, so for JS-representable graphs the fallback is unreachable. -/
def safeStringify (h : Heap) (data : HVal) (space : Option Nat) : String :=
  match data with
  | .hnull => "null"
  | .undef => "undefined"
  | .hstr s => quoteStr s
  | .hnum n => toString n
  | .hbool b => if b then "true" else "false"
  | .hfunc => "[function]"
  | .hsym => "[symbol]"
  | .href a =>
    match serGo h (gapOf space) (serFuel h) [] "" (.val (.href a)) with
    | some (.one (some s), _) => s
    | some _ => "undefined"
    | none => "[Error stringifying data: Unknown error]"

/-! ## Laying a tree value out as a heap graph

A parsed-JSON tree (every node a fresh object, no sharing, no cycles) is
exactly what the dispatcher hands to safeStringify.  encHeap/encVal allocate
such a tree at consecutive heap addresses starting at a base. -/

mutual

def encSize : JsValue → Nat
  | .undef | .null | .bool _ | .num _ | .str _ => 0
  | .arr xs => 1 + encSizeItems xs
  | .obj fields => 1 + encSizeFields fields

def encSizeItems : List JsValue → Nat
  | [] => 0
  | x :: xs => encSize x + encSizeItems xs

def encSizeFields : List (String × JsValue) → Nat
  | [] => 0
  | (_, v) :: fs => encSize v + encSizeFields fs

end

def encVal (j : JsValue) (base : Nat) : HVal :=
  match j with
  | .undef => .undef
  | .null => .hnull
  | .bool b => .hbool b
  | .num n => .hnum n
  | .str s => .hstr s
  | .arr _ => .href base
  | .obj _ => .href base

mutual

def encHeap : JsValue → Nat → List HObj
  | .undef, _ | .null, _ | .bool _, _ | .num _, _ | .str _, _ => []
  | .arr xs, base => .harr (encItemsRow xs (base + 1)) :: encItemsHeap xs (base + 1)
  | .obj fields, base => .hobj (encFieldsRow fields (base + 1)) :: encFieldsHeap fields (base + 1)

def encItemsRow : List JsValue → Nat → List HVal
  | [], _ => []
  | x :: xs, base => encVal x base :: encItemsRow xs (base + encSize x)

def encItemsHeap : List JsValue → Nat → List HObj
  | [], _ => []
  | x :: xs, base => encHeap x base ++ encItemsHeap xs (base + encSize x)

def encFieldsRow : List (String × JsValue) → Nat → List (String × HVal)
  | [], _ => []
  | (k, v) :: fs, base => (k, encVal v base) :: encFieldsRow fs (base + encSize v)

def encFieldsHeap : List (String × JsValue) → Nat → List HObj
  | [], _ => []
  | (_, v) :: fs, base => encHeap v base ++ encFieldsHeap fs (base + encSize v)

end

/-- safeStringify applied to a tree value laid out in a fresh heap: the form
in which the dispatcher serializes service results. -/
def safeStringifyTree (j : JsValue) (space : Option Nat) : String :=
  safeStringify (encHeap j 0) (encVal j 0) space

/-! ## The typed error taxonomy -/

/-- Modelled from the spec: the closed error taxonomy of section 7.  The
current src/types/index.ts defining ConfigurationError, ExternalServiceError,
NetworkError and the context-carrying base class is not among the available
sources (only an earlier snapshot, plus the importing service and the tests
that assert a context field); kinds, machine codes and default statuses
follow the spec's table. -/
inductive ErrorKind where
  | validation
  | authentication
  | notFound
  | configuration
  | externalService
  | network
deriving DecidableEq

def ErrorKind.machineCode : ErrorKind → String
  | .validation => "VALIDATION_ERROR"
  | .authentication => "AUTHENTICATION_ERROR"
  | .notFound => "NOT_FOUND"
  | .configuration => "CONFIGURATION_ERROR"
  | .externalService => "EXTERNAL_SERVICE_ERROR"
  | .network => "NETWORK_ERROR"

def ErrorKind.httpStatus : ErrorKind → Nat
  | .validation => 400
  | .authentication => 401
  | .notFound => 404
  | .configuration => 500
  | .externalService => 502
  | .network => 503

/-- Modelled from the spec: an error is a kind plus a human message plus an
open key-value context map of plain serializable diagnostics. -/
structure MCPError where
  kind : ErrorKind
  message : String
  context : JsValue

/-! ## Input validation (src/utils/validation.ts)

The zod schemas of the source, modelled as executable checkers that return
either the narrowed value or the list of zod issues (path, message, code).
Issue messages and codes follow the schema library's behavior for the checks
the source declares. -/

structure ZIssue where
  path : List String
  message : String
  code : String
deriving DecidableEq

/-- The zod type name of a value, as used in invalid_type messages. -/
def zodTypeName : JsValue → String
  | .undef => "undefined"
  | .null => "null"
  | .bool _ => "boolean"
  | .num _ => "number"
  | .str _ => "string"
  | .arr _ => "array"
  | .obj _ => "object"

/-- z.string().min(1, msg): a non-string is an invalid_type issue, the empty
string a too_small issue carrying the declared message. -/
def nonEmptyStringSchema (msg : String) (v : JsValue) : Except (List ZIssue) String :=
  match v with
  | .str s =>
    if s = "" then .error [⟨[], msg, "too_small"⟩]
    else .ok s
  | other => .error [⟨[], "Expected string, received " ++ zodTypeName other, "invalid_type"⟩]

/-- dashboardIdSchema = z.string().min(1, 'Dashboard ID cannot be empty'). -/
def dashboardIdSchema : JsValue → Except (List ZIssue) String :=
  nonEmptyStringSchema "Dashboard ID cannot be empty"

/-- cubeIdSchema = z.string().min(1, 'Cube ID cannot be empty'). -/
def cubeIdSchema : JsValue → Except (List ZIssue) String :=
  nonEmptyStringSchema "Cube ID cannot be empty"

/-- The validated query object: query string plus optional parameter map,
positive limit and non-negative offset (z.object strips unknown keys). -/
structure QueryObj where
  query : String
  parameters : Option (List (String × JsValue))
  limit : Option Int
  offset : Option Int

/-- Issues of the query field of querySchema, with field-relative paths. -/
def queryFieldIssues (v : JsValue) : List ZIssue :=
  match v with
  | .undef => [⟨["query"], "Required", "invalid_type"⟩]
  | .str s => if s = "" then [⟨["query"], "Query cannot be empty", "too_small"⟩] else []
  | other => [⟨["query"], "Expected string, received " ++ zodTypeName other, "invalid_type"⟩]

def parametersFieldIssues (v : JsValue) : List ZIssue :=
  match v with
  | .undef => []
  | .obj _ => []
  | other => [⟨["parameters"], "Expected object, received " ++ zodTypeName other, "invalid_type"⟩]

def limitFieldIssues (v : JsValue) : List ZIssue :=
  match v with
  | .undef => []
  | .num n => if n ≤ 0 then [⟨["limit"], "Number must be greater than 0", "too_small"⟩] else []
  | other => [⟨["limit"], "Expected number, received " ++ zodTypeName other, "invalid_type"⟩]

def offsetFieldIssues (v : JsValue) : List ZIssue :=
  match v with
  | .undef => []
  | .num n => if n < 0 then [⟨["offset"], "Number must be greater than or equal to 0", "too_small"⟩] else []
  | other => [⟨["offset"], "Expected number, received " ++ zodTypeName other, "invalid_type"⟩]

/-- querySchema = z.object({query: z.string().min(1, 'Query cannot be empty'),
parameters: z.record(z.unknown()).optional(), limit: z.number().positive()
.optional(), offset: z.number().nonnegative().optional()}). -/
def querySchema (v : JsValue) : Except (List ZIssue) QueryObj :=
  match v with
  | .obj fields =>
    let qv := getField (.obj fields) "query"
    let pv := getField (.obj fields) "parameters"
    let lv := getField (.obj fields) "limit"
    let ov := getField (.obj fields) "offset"
    let issues := queryFieldIssues qv ++ parametersFieldIssues pv ++
      limitFieldIssues lv ++ offsetFieldIssues ov
    match issues with
    | [] =>
      match qv with
      | .str s =>
        .ok { query := s
              parameters := match pv with | .obj pf => some pf | _ => none
              limit := match lv with | .num n => some n | _ => none
              offset := match ov with | .num n => some n | _ => none }
      | _ => .error [⟨["query"], "Required", "invalid_type"⟩]
    | _ => .error issues
  | other => .error [⟨[], "Expected object, received " ++ zodTypeName other, "invalid_type"⟩]

/-- The text before and after the first :// separator, when present. -/
def splitScheme : List Char → Option (List Char × List Char)
  | [] => none
  | c :: cs =>
    if c = ':' && isPrefixList ['/', '/'] cs then some ([], cs.drop 2)
    else
      match splitScheme cs with
      | some (a, b) => some (c :: a, b)
      | none => none

/-- Model of the URL parser behind z.string().url('Invalid Sisense URL'): a
string is accepted when it has a non-empty alphabetic scheme, the ://
separator, and a non-empty remainder. -/
def isValidUrl (s : String) : Bool :=
  match splitScheme s.toList with
  | some (scheme, rest) => scheme ≠ [] && scheme.all Char.isAlpha && rest ≠ []
  | none => false

structure SisenseConfig where
  url : String
  apiKey : String
deriving DecidableEq

/-- sisenseConfigSchema = z.object({url: z.string().url('Invalid Sisense URL'),
apiKey: z.string().min(1, 'API key cannot be empty')}). -/
def sisenseConfigSchema (v : JsValue) : Except (List ZIssue) SisenseConfig :=
  match v with
  | .obj fields =>
    let uv := getField (.obj fields) "url"
    let kv := getField (.obj fields) "apiKey"
    let urlIssues : List ZIssue :=
      match uv with
      | .undef => [⟨["url"], "Required", "invalid_type"⟩]
      | .str s => if isValidUrl s then [] else [⟨["url"], "Invalid Sisense URL", "invalid_string"⟩]
      | other => [⟨["url"], "Expected string, received " ++ zodTypeName other, "invalid_type"⟩]
    let keyIssues : List ZIssue :=
      match kv with
      | .undef => [⟨["apiKey"], "Required", "invalid_type"⟩]
      | .str s => if s = "" then [⟨["apiKey"], "API key cannot be empty", "too_small"⟩] else []
      | other => [⟨["apiKey"], "Expected string, received " ++ zodTypeName other, "invalid_type"⟩]
    match urlIssues ++ keyIssues with
    | [] =>
      match uv, kv with
      | .str u, .str k => .ok ⟨u, k⟩
      | _, _ => .error [⟨[], "Required", "invalid_type"⟩]
    | issues => .error issues
  | other => .error [⟨[], "Expected object, received " ++ zodTypeName other, "invalid_type"⟩]

/-- resourceUriSchema's regex: sisense://(dashboard|cube)/ followed by one or
more characters from [a-zA-Z0-9_-]. -/
def isUriToken (c : Char) : Bool :=
  c.isAlpha || c.isDigit || c = '_' || c = '-'

def dropPrefixList : List Char → List Char → Option (List Char)
  | [], l => some l
  | _ :: _, [] => none
  | a :: as, b :: bs => if a = b then dropPrefixList as bs else none

def matchesResourceUri (s : String) : Bool :=
  (["sisense://dashboard/", "sisense://cube/"].any fun p =>
    match dropPrefixList p.toList s.toList with
    | some rest => rest ≠ [] && rest.all isUriToken
    | none => false)

/-- validateInput from src/utils/validation.ts: run the schema; on failure
wrap the zod issues into a Validation error whose context carries, per issue,
the dot-joined path, message and code, plus the original input — kept as-is
when its typeof is 'object', wrapped under a value key otherwise. -/
def validateInput {α : Type} (schema : JsValue → Except (List ZIssue) α) (input : JsValue) :
    Except MCPError α :=
  match schema input with
  | .ok a => .ok a
  | .error issues =>
    .error
      { kind := .validation
        message := "Input validation failed"
        context := .obj
          [("errors", .arr (issues.map fun e => .obj
              [("path", .str (String.intercalate "." e.path)),
               ("message", .str e.message),
               ("code", .str e.code)])),
           ("input", if typeofIsObject input then input else .obj [("value", input)])] }

def validateDashboardId (dashboardId : JsValue) : Except MCPError String :=
  validateInput dashboardIdSchema dashboardId

def validateCubeId (cubeId : JsValue) : Except MCPError String :=
  validateInput cubeIdSchema cubeId

def validateQuery (query : JsValue) : Except MCPError QueryObj :=
  validateInput querySchema query

def validateSisenseConfig (config : JsValue) : Except MCPError SisenseConfig :=
  validateInput sisenseConfigSchema config

/-! ## The upstream client (src/services/sisense.ts) -/

structure HttpRequest where
  url : String
  method : String
  headers : List (String × String)
  body : Option String
deriving DecidableEq

structure HttpResponse where
  status : Nat
  statusText : String
  body : String
deriving DecidableEq

/-- Response.ok on the platform: status in the 2xx range. -/
def respOk (r : HttpResponse) : Bool :=
  200 ≤ r.status && r.status ≤ 299

/-- What one fetch call produces: a response, or a thrown platform error
with its name and message (transport failures surface as a TypeError whose
message mentions fetch). -/
inductive FetchOutcome where
  | resp (r : HttpResponse)
  | thrown (name : String) (msg : String)

structure RequestOptions where
  method : Option String
  headers : List (String × String)
  body : Option String

def RequestOptions.none0 : RequestOptions := ⟨none, [], none⟩

def SisenseConfig.isConfigured (cfg : SisenseConfig) : Bool :=
  cfg.url ≠ "" && cfg.apiKey ≠ ""

def getAuthHeaders (cfg : SisenseConfig) : List (String × String) :=
  [("Content-Type", "application/json"), ("Accept", "application/json")] ++
    (if cfg.apiKey ≠ "" then [("Authorization", "Bearer " ++ cfg.apiKey)] else [])

/-- Object-spread merge {...base, ...extra}: keys of extra override base. -/
def mergeHeaders (base extra : List (String × String)) : List (String × String) :=
  (base.filter fun kv => (extra.lookup kv.1).isNone) ++ extra

/-- url.replace(/\/$/, ''): drop one trailing slash. -/
def stripTrailingSlash (s : String) : String :=
  match s.toList.getLast? with
  | some '/' => String.mk s.toList.dropLast
  | _ => s

def mkErrorContextResp (url : String) (r : HttpResponse) (method : String) : JsValue :=
  .obj [("url", .str url), ("status", .num r.status),
        ("statusText", .str r.statusText), ("method", .str method)]

/-- makeRequest from src/services/sisense.ts, given the outcome the platform
fetch produces for the request it issues.  The returned list records the
requests actually issued (empty when the configuration gate throws first).
The classification mirrors the source: configuration gate, then 401 / 404 /
5xx / other non-2xx, then the JSON-parse guard; a thrown TypeError whose
message mentions fetch becomes a Network error and any other throw falls to
the catch-all ExternalService wrap. -/
def makeRequest (cfg : SisenseConfig) (endpoint : String) (options : RequestOptions)
    (fetchImpl : HttpRequest → FetchOutcome) : Except MCPError JsValue × List HttpRequest :=
  if ¬cfg.isConfigured then
    (.error { kind := .configuration
              message := "Sisense is not properly configured"
              context := .obj [("hasUrl", .bool (cfg.url ≠ "")),
                               ("hasApiKey", .bool (cfg.apiKey ≠ ""))] }, [])
  else
    let url := stripTrailingSlash cfg.url ++ endpoint
    let method := options.method.getD "GET"
    let req : HttpRequest :=
      { url := url, method := method
        headers := mergeHeaders (getAuthHeaders cfg) options.headers
        body := options.body }
    let outcome :=
      match fetchImpl req with
      | .thrown name msg =>
        if name = "TypeError" && containsSub "fetch" msg then
          .error { kind := .network
                   message := "Network error connecting to Sisense"
                   context := .obj [("url", .str url), ("originalError", .str msg)] }
        else
          .error { kind := .externalService
                   message := "Sisense API request failed"
                   context := .obj [("url", .str url), ("endpoint", .str endpoint),
                                    ("originalError", .str msg)] }
      | .resp r =>
        if ¬respOk r then
          if r.status = 401 then
            .error { kind := .authentication
                     message := "Sisense authentication failed"
                     context := mkErrorContextResp url r method }
          else if r.status = 404 then
            .error { kind := .notFound
                     message := "Sisense resource not found"
                     context := mkErrorContextResp url r method }
          else if r.status ≥ 500 then
            .error { kind := .externalService
                     message := "Sisense server error"
                     context := mkErrorContextResp url r method }
          else
            .error { kind := .externalService
                     message := "Sisense API error: " ++ toString r.status ++ " " ++ r.statusText
                     context := mkErrorContextResp url r method }
        else
          match safeParse r.body with
          | none =>
            .error { kind := .externalService
                     message := "Invalid JSON response from Sisense API"
                     context := .obj [("url", .str url),
                                      ("responseLength", .num r.body.length),
                                      ("responsePreview", .str (r.body.take 200))] }
          | some data => .ok data
    (outcome, [req])

def getServerInfo (cfg : SisenseConfig) (fetchImpl : HttpRequest → FetchOutcome) :
    Except MCPError JsValue × List HttpRequest :=
  makeRequest cfg "/api/v1/server/info" .none0 fetchImpl

def getDataSources (cfg : SisenseConfig) (fetchImpl : HttpRequest → FetchOutcome) :
    Except MCPError JsValue × List HttpRequest :=
  makeRequest cfg "/api/v1/datasources" .none0 fetchImpl

def getDashboards (cfg : SisenseConfig) (fetchImpl : HttpRequest → FetchOutcome) :
    Except MCPError JsValue × List HttpRequest :=
  makeRequest cfg "/api/v1/dashboards" .none0 fetchImpl

def getDashboard (cfg : SisenseConfig) (dashboardId : String)
    (fetchImpl : HttpRequest → FetchOutcome) : Except MCPError JsValue × List HttpRequest :=
  match validateDashboardId (.str dashboardId) with
  | .error e => (.error e, [])
  | .ok validatedId => makeRequest cfg ("/api/v1/dashboards/" ++ validatedId) .none0 fetchImpl

def getDashboardWidgets (cfg : SisenseConfig) (dashboardId : String)
    (fetchImpl : HttpRequest → FetchOutcome) : Except MCPError JsValue × List HttpRequest :=
  match validateDashboardId (.str dashboardId) with
  | .error e => (.error e, [])
  | .ok validatedId =>
    makeRequest cfg ("/api/v1/dashboards/" ++ validatedId ++ "/widgets") .none0 fetchImpl

def queryToJs (q : QueryObj) : JsValue :=
  .obj ([("query", .str q.query)] ++
    (match q.parameters with | some pf => [("parameters", .obj pf)] | none => []) ++
    (match q.limit with | some n => [("limit", .num n)] | none => []) ++
    (match q.offset with | some n => [("offset", .num n)] | none => []))

def executeQuery (cfg : SisenseConfig) (query : JsValue)
    (fetchImpl : HttpRequest → FetchOutcome) : Except MCPError JsValue × List HttpRequest :=
  match validateQuery query with
  | .error e => (.error e, [])
  | .ok validatedQuery =>
    makeRequest cfg "/api/v1/query/execute"
      { method := some "POST", headers := [], body := jsonStringify (queryToJs validatedQuery) none }
      fetchImpl

def getCubes (cfg : SisenseConfig) (fetchImpl : HttpRequest → FetchOutcome) :
    Except MCPError JsValue × List HttpRequest :=
  makeRequest cfg "/api/v1/cubes" .none0 fetchImpl

def getCubeMetadata (cfg : SisenseConfig) (cubeId : String)
    (fetchImpl : HttpRequest → FetchOutcome) : Except MCPError JsValue × List HttpRequest :=
  match validateCubeId (.str cubeId) with
  | .error e => (.error e, [])
  | .ok validatedId => makeRequest cfg ("/api/v1/cubes/" ++ validatedId ++ "/metadata") .none0 fetchImpl

/-- The SisenseService constructor: fields default through the provided
partial configuration, then the environment, then the empty string; schema
validation runs only when both fields are non-empty, and a validation
failure there is re-thrown as a Configuration error. -/
def sisenseServiceInit (cfgUrl cfgApiKey envUrl envApiKey : Option String) :
    Except MCPError SisenseConfig :=
  let rawUrl := cfgUrl.getD (envUrl.getD "")
  let rawKey := cfgApiKey.getD (envApiKey.getD "")
  if rawUrl ≠ "" && rawKey ≠ "" then
    match validateSisenseConfig (.obj [("url", .str rawUrl), ("apiKey", .str rawKey)]) with
    | .ok c => .ok c
    | .error e =>
      .error { kind := .configuration
               message := "Invalid Sisense configuration"
               context := .obj [("originalError", .str e.message)] }
  else
    .ok ⟨rawUrl, rawKey⟩

/-! ## The dispatcher (src/server/mcp-server.ts)

The SisenseMCPServer holds a SisenseService and calls its methods; the
dispatcher functions are embedded over an oracle giving the outcome of each
service method, which covers both the real client and the mocked one the
tests use.  A JS exception is either one of the typed errors or an ordinary
Error carrying a name and message. -/

inductive JsException where
  | mcp (e : MCPError)
  | other (name : String) (msg : String)

structure ServiceOracle where
  configured : Bool
  serverInfo : Except JsException JsValue
  dataSources : Except JsException JsValue
  dashboards : Except JsException JsValue
  dashboard : String → Except JsException JsValue
  dashboardWidgets : String → Except JsException JsValue
  execQuery : JsValue → Except JsException JsValue
  cubes : Except JsException JsValue
  cubeMetadata : String → Except JsException JsValue

/-- Which service methods a dispatcher call invoked, in order. -/
inductive ServiceCall where
  | serverInfo
  | dataSources
  | dashboards
  | dashboard (id : String)
  | dashboardWidgets (id : String)
  | execQuery (q : JsValue)
  | cubes
  | cubeMetadata (id : String)

structure ResourceDefinition where
  uri : String
  name : JsValue
  description : JsValue
  mimeType : String

/-- One dashboard listing entry mapped to a resource descriptor; none models
the TypeError a property access on null/undefined throws in JS (caught by
the surrounding try in the source). -/
def descriptorOf (dashboard : JsValue) : Option ResourceDefinition :=
  match dashboard with
  | .null => none
  | .undef => none
  | d =>
    let oid := getField d "oid"
    let title := getField d "title"
    some
      { uri := "sisense://dashboard/" ++ jsToString oid
        name := if jsTruthy title then title else .str ("Dashboard " ++ jsToString oid)
        description := getField d "description"
        mimeType := "application/json" }

/-- A map that can throw: none as soon as one element maps to none. -/
def mapOrThrow {α β : Type} (f : α → Option β) : List α → Option (List β)
  | [] => some []
  | x :: xs =>
    match f x with
    | none => none
    | some y =>
      match mapOrThrow f xs with
      | none => none
      | some ys => some (y :: ys)

/-- getAvailableResources: empty when not configured; otherwise the mapped
dashboard listing, with every failure inside the try (a rejected dashboards
call, a non-array listing, a throwing map step) swallowed to the empty
list. -/
def getAvailableResources (svc : ServiceOracle) : List ResourceDefinition :=
  if ¬svc.configured then []
  else
    match svc.dashboards with
    | .error _ => []
    | .ok (.arr ds) =>
      match mapOrThrow descriptorOf ds with
      | some resources => resources
      | none => []
    | .ok _ => []

structure ContentBlock where
  uri : String
  mimeType : String
  text : String
deriving DecidableEq

structure ReadResult where
  contents : List ContentBlock
deriving DecidableEq

/-- readResource: scheme gate, slash-split, parts[2] as the resource type and
parts[3] as the id, falsy-id rejection, and a switch supporting only the
dashboard kind.  Returns the result together with the service calls made. -/
def readResource (svc : ServiceOracle) (uri : String) :
    Except JsException ReadResult × List ServiceCall :=
  if ¬jsStartsWith "sisense://" uri then
    (.error (.other "Error" ("Unsupported resource URI: " ++ uri)), [])
  else
    let parts := jsSplit uri '/'
    let resourceType := parts[2]?
    let resourceId := parts[3]?
    match resourceId with
    | none => (.error (.other "Error" ("Invalid resource URI: " ++ uri)), [])
    | some rid =>
      if rid = "" then (.error (.other "Error" ("Invalid resource URI: " ++ uri)), [])
      else
        match resourceType with
        | some "dashboard" =>
          match svc.dashboard rid with
          | .error e => (.error e, [.dashboard rid])
          | .ok data =>
            (.ok { contents := [{ uri := uri, mimeType := "application/json"
                                  text := safeStringifyTree data (some 2) }] },
             [.dashboard rid])
        | some other => (.error (.other "Error" ("Unsupported resource type: " ++ other)), [])
        | none => (.error (.other "Error" "Unsupported resource type: undefined"), [])

structure ToolContent where
  contentType : String
  text : String
deriving DecidableEq

structure CallResult where
  content : List ToolContent
deriving DecidableEq

def wrapToolResult (result : JsValue) : CallResult :=
  { content := [{ contentType := "text", text := safeStringifyTree result (some 2) }] }

/-- args[k] in JS: undefined when the key is absent. -/
def argGet (args : List (String × JsValue)) (k : String) : JsValue :=
  (assocLookup args k).getD JsValue.undef

/-- The argument presence/type gate of callTool: !arg || typeof arg !== t. -/
def argFailsString (v : JsValue) : Bool :=
  ¬jsTruthy v || ¬isJsString v

def argFailsObject (v : JsValue) : Bool :=
  ¬jsTruthy v || ¬typeofIsObject v

/-- callTool: dispatch on the tool name, with the loose argument gate ahead
of any service call; returns the result and the service calls made. -/
def callTool (svc : ServiceOracle) (name : String) (args : List (String × JsValue)) :
    Except JsException CallResult × List ServiceCall :=
  if name = "get_server_info" then
    (svc.serverInfo.map wrapToolResult, [.serverInfo])
  else if name = "list_data_sources" then
    (svc.dataSources.map wrapToolResult, [.dataSources])
  else if name = "list_dashboards" then
    (svc.dashboards.map wrapToolResult, [.dashboards])
  else if name = "get_dashboard" then
    let v := argGet args "dashboardId"
    if argFailsString v then
      (.error (.other "Error" "dashboardId is required and must be a string"), [])
    else
      match v with
      | .str id => ((svc.dashboard id).map wrapToolResult, [.dashboard id])
      | _ => (.error (.other "Error" "dashboardId is required and must be a string"), [])
  else if name = "get_dashboard_widgets" then
    let v := argGet args "dashboardId"
    if argFailsString v then
      (.error (.other "Error" "dashboardId is required and must be a string"), [])
    else
      match v with
      | .str id => ((svc.dashboardWidgets id).map wrapToolResult, [.dashboardWidgets id])
      | _ => (.error (.other "Error" "dashboardId is required and must be a string"), [])
  else if name = "execute_query" then
    let v := argGet args "query"
    if argFailsObject v then
      (.error (.other "Error" "query is required and must be an object"), [])
    else
      ((svc.execQuery v).map wrapToolResult, [.execQuery v])
  else if name = "list_cubes" then
    (svc.cubes.map wrapToolResult, [.cubes])
  else if name = "get_cube_metadata" then
    let v := argGet args "cubeId"
    if argFailsString v then
      (.error (.other "Error" "cubeId is required and must be a string"), [])
    else
      match v with
      | .str id => ((svc.cubeMetadata id).map wrapToolResult, [.cubeMetadata id])
      | _ => (.error (.other "Error" "cubeId is required and must be a string"), [])
  else
    (.error (.other "Error" ("Unknown tool: " ++ name)), [])

/-! ## Helper definitions for the theorems -/

def resultKind (p : Except MCPError JsValue × List HttpRequest) : Option ErrorKind :=
  match p.1 with
  | .error e => some e.kind
  | .ok _ => none

def exKind {α : Type} : Except MCPError α → Option ErrorKind
  | .error e => some e.kind
  | .ok _ => none

def exContext {α : Type} : Except MCPError α → Option JsValue
  | .error e => some e.context
  | .ok _ => none

/-- A configured test client (the configuration the repository tests use). -/
def cfgTest : SisenseConfig := ⟨"https://test-sisense.com", "test-token"⟩

/-- The unconfigured client: empty url and credential. -/
def cfgEmpty : SisenseConfig := ⟨"", ""⟩

/-- A fetch stub; which outcome it yields is irrelevant wherever it is used. -/
def fetchStub : HttpRequest → FetchOutcome := fun _ => .thrown "Error" "no network"

/-- A service oracle stub for closed statements about the dispatcher. -/
def svcStub : ServiceOracle :=
  { configured := true
    serverInfo := .ok .null
    dataSources := .ok .null
    dashboards := .ok (.arr [])
    dashboard := fun id => .ok (.obj [("oid", .str id)])
    dashboardWidgets := fun _ => .ok (.arr [])
    execQuery := fun _ => .ok .null
    cubes := .ok .null
    cubeMetadata := fun _ => .ok .null }

/-- A service oracle whose dashboards listing throws. -/
def svcThrowing : ServiceOracle :=
  { svcStub with dashboards := .error (.other "Error" "boom") }

/-- The number of heap addresses not yet in the seen set: the quantity the
serializer's seen-set growth strictly decreases. -/
def countUnseen (h : Heap) (seen : List Nat) : Nat :=
  ((List.range h.length).filter fun a => decide (a ∉ seen)).length

/-- No address of the region [base, base+size) occurs in the seen set. -/
def RegionFree (seen : List Nat) (base size : Nat) : Prop :=
  ∀ a, base ≤ a → a < base + size → a ∉ seen

/-- The heap h holds the encoding of the tree j at base. -/
def EncAt (h : Heap) (j : JsValue) (base : Nat) : Prop :=
  ∀ i, i < encSize j → h[base + i]? = (encHeap j base)[i]?

def EncAtItems (h : Heap) (xs : List JsValue) (b : Nat) : Prop :=
  ∀ i, i < encSizeItems xs → h[b + i]? = (encItemsHeap xs b)[i]?

def EncAtFields (h : Heap) (fs : List (String × JsValue)) (b : Nat) : Prop :=
  ∀ i, i < encSizeFields fs → h[b + i]? = (encFieldsHeap fs b)[i]?

/-! ## Serializer lemmas for claim C7 -/

theorem countUnseen_le (h : Heap) (seen : List Nat) : countUnseen h seen ≤ h.length := by
  calc ((List.range h.length).filter fun a => decide (a ∉ seen)).length
      ≤ (List.range h.length).length := List.length_filter_le _ _
    _ = h.length := by simp

theorem countUnseen_mono (h : Heap) {seen seen1 : List Nat} (hsub : seen ⊆ seen1) :
    countUnseen h seen1 ≤ countUnseen h seen := by
  apply List.Sublist.length_le
  apply List.monotone_filter_right
  intro a ha
  simp only [decide_eq_true_eq] at ha ⊢
  exact fun hmem => ha (hsub hmem)

theorem length_filter_cons_mem {l : List Nat} (hnd : l.Nodup) {a : Nat} (ha : a ∈ l)
    {p : Nat → Bool} (hpa : p a = true) :
    (l.filter p).length = ((l.filter fun x => decide (x ≠ a) && p x)).length + 1 := by
  induction l with
  | nil => cases ha
  | cons b t ih =>
    rcases List.nodup_cons.mp hnd with ⟨hbt, hndt⟩
    rcases List.mem_cons.mp ha with hba | hat
    · subst hba
      have ht : (t.filter fun x => !decide (x = a) && p x) = t.filter p :=
        List.filter_congr fun x hx => by
          have hxb : ¬(x = a) := fun hh => hbt (hh ▸ hx)
          simp [hxb]
      simp [List.filter_cons, hpa, ht]
    · have hba : (b ≠ a) := fun hh => hbt (hh ▸ hat)
      by_cases hpb : p b = true
      · simp [List.filter_cons, hpb, hba, ih hndt hat]
      · simp only [Bool.not_eq_true] at hpb
        simp [List.filter_cons, hpb, hba, ih hndt hat]

theorem countUnseen_cons {h : Heap} {a : Nat} {seen : List Nat}
    (hlt : a < h.length) (hmem : a ∉ seen) :
    countUnseen h seen = countUnseen h (a :: seen) + 1 := by
  unfold countUnseen
  have ha : a ∈ List.range h.length := List.mem_range.mpr hlt
  have hp : (decide (a ∉ seen)) = true := by simpa using hmem
  rw [length_filter_cons_mem (List.nodup_range _) ha hp]
  congr 2
  apply List.filter_congr
  intro x hx
  by_cases hxa : x = a
  · subst hxa
    simp [hmem]
  · simp [List.mem_cons, hxa]

theorem maxRowLen_cons (b : HObj) (t : Heap) :
    maxRowLen (b :: t) = max (rowLen b) (maxRowLen t) := by
  simp [maxRowLen]

theorem rowLen_le_max {h : Heap} {a : Nat} {o : HObj} (hgl : h[a]? = some o) :
    rowLen o ≤ maxRowLen h := by
  have hmem : o ∈ h := by
    rcases List.getElem?_eq_some.mp hgl with ⟨hlt, hget⟩
    exact hget ▸ List.getElem_mem hlt
  clear hgl
  induction h with
  | nil => cases hmem
  | cons b t ih =>
    rw [maxRowLen_cons]
    rcases List.mem_cons.mp hmem with rfl | hmem2
    · exact Nat.le_max_left _ _
    · exact le_trans (ih hmem2) (Nat.le_max_right _ _)

theorem serGo_seen_grow : ∀ (fuel : Nat) (h : Heap) (gap : String) (seen : List Nat)
    (cur : String) (job : SerJob) (out : SerOut × List Nat),
    serGo h gap fuel seen cur job = some out → seen ⊆ out.2 := by
  intro fuel
  induction fuel with
  | zero => intro h gap seen cur job out hgo; simp [serGo] at hgo
  | succ f ih =>
    intro h gap seen cur job out hgo
    cases job with
    | val v =>
      cases v with
      | undef => simp [serGo] at hgo; subst hgo; exact fun _ hx => hx
      | hfunc => simp [serGo] at hgo; subst hgo; exact fun _ hx => hx
      | hsym => simp [serGo] at hgo; subst hgo; exact fun _ hx => hx
      | hnull => simp [serGo] at hgo; subst hgo; exact fun _ hx => hx
      | hbool b => simp [serGo] at hgo; subst hgo; exact fun _ hx => hx
      | hnum n => simp [serGo] at hgo; subst hgo; exact fun _ hx => hx
      | hstr s => simp [serGo] at hgo; subst hgo; exact fun _ hx => hx
      | href a =>
        simp only [serGo] at hgo
        by_cases hsn : a ∈ seen
        · rw [if_pos hsn] at hgo
          cases hgo
          exact fun _ hx => hx
        · rw [if_neg hsn] at hgo
          cases hga : h[a]? with
          | none => simp [hga] at hgo; subst hgo; exact fun _ hx => hx
          | some o =>
            cases o with
            | harr elems =>
              simp only [hga] at hgo
              cases hsub : serGo h gap f (a :: seen) (cur ++ gap) (.items elems) with
              | none => simp [hsub] at hgo
              | some res =>
                obtain ⟨o2, s2⟩ := res
                cases o2 with
                | one s1 => simp [hsub] at hgo
                | many ss =>
                  simp only [hsub] at hgo
                  cases hgo
                  have := ih h gap (a :: seen) (cur ++ gap) (.items elems) (.many ss, s2) hsub
                  exact fun x hx => this (List.mem_cons_of_mem a hx)
            | hobj fields =>
              simp only [hga] at hgo
              cases hsub : serGo h gap f (a :: seen) (cur ++ gap) (.fields fields) with
              | none => simp [hsub] at hgo
              | some res =>
                obtain ⟨o2, s2⟩ := res
                cases o2 with
                | one s1 => simp [hsub] at hgo
                | many ss =>
                  simp only [hsub] at hgo
                  cases hgo
                  have := ih h gap (a :: seen) (cur ++ gap) (.fields fields) (.many ss, s2) hsub
                  exact fun x hx => this (List.mem_cons_of_mem a hx)
    | items vs =>
      cases vs with
      | nil => simp [serGo] at hgo; subst hgo; exact fun _ hx => hx
      | cons v vs =>
        simp only [serGo] at hgo
        cases hsub1 : serGo h gap f seen cur (.val v) with
        | none => simp [hsub1] at hgo
        | some res1 =>
          obtain ⟨o1, s1⟩ := res1
          cases o1 with
          | many ss => simp [hsub1] at hgo
          | one sv =>
            simp only [hsub1] at hgo
            cases hsub2 : serGo h gap f s1 cur (.items vs) with
            | none => simp [hsub2] at hgo
            | some res2 =>
              obtain ⟨o2, s2⟩ := res2
              cases o2 with
              | one s0 => simp [hsub2] at hgo
              | many ss =>
                simp only [hsub2] at hgo
                cases hgo
                have h1 := ih h gap seen cur (.val v) (.one sv, s1) hsub1
                have h2 := ih h gap s1 cur (.items vs) (.many ss, s2) hsub2
                exact fun x hx => h2 (h1 hx)
    | fields fs =>
      cases fs with
      | nil => simp [serGo] at hgo; subst hgo; exact fun _ hx => hx
      | cons kv fs =>
        obtain ⟨k, v⟩ := kv
        simp only [serGo] at hgo
        cases hsub1 : serGo h gap f seen cur (.val v) with
        | none => simp [hsub1] at hgo
        | some res1 =>
          obtain ⟨o1, s1⟩ := res1
          cases o1 with
          | many ss => simp [hsub1] at hgo
          | one sv =>
            simp only [hsub1] at hgo
            cases hsub2 : serGo h gap f s1 cur (.fields fs) with
            | none => simp [hsub2] at hgo
            | some res2 =>
              obtain ⟨o2, s2⟩ := res2
              cases o2 with
              | one s0 => simp [hsub2] at hgo
              | many ss =>
                have h1 := ih h gap seen cur (.val v) (.one sv, s1) hsub1
                have h2 := ih h gap s1 cur (.fields fs) (.many ss, s2) hsub2
                cases sv with
                | none =>
                  simp only [hsub2] at hgo
                  cases hgo
                  exact fun x hx => h2 (h1 hx)
                | some s =>
                  simp only [hsub2] at hgo
                  cases hgo
                  exact fun x hx => h2 (h1 hx)

theorem serGo_some : ∀ (fuel : Nat) (h : Heap) (gap : String) (seen : List Nat) (cur : String),
    (∀ v : HVal, 1 + countUnseen h seen * (2 + maxRowLen h) ≤ fuel →
      ∃ s seen1, serGo h gap fuel seen cur (.val v) = some (.one s, seen1)) ∧
    (∀ vs : List HVal, 1 + vs.length + countUnseen h seen * (2 + maxRowLen h) ≤ fuel →
      ∃ ss seen1, serGo h gap fuel seen cur (.items vs) = some (.many ss, seen1)) ∧
    (∀ fs : List (String × HVal), 1 + fs.length + countUnseen h seen * (2 + maxRowLen h) ≤ fuel →
      ∃ ss seen1, serGo h gap fuel seen cur (.fields fs) = some (.many ss, seen1)) := by
  intro fuel
  induction fuel with
  | zero =>
    intro h gap seen cur
    refine ⟨?_, ?_, ?_⟩ <;> intro x hle <;> omega
  | succ f ih =>
    intro h gap seen cur
    refine ⟨?_, ?_, ?_⟩
    · intro v hle
      cases v with
      | undef => exact ⟨none, seen, rfl⟩
      | hfunc => exact ⟨none, seen, rfl⟩
      | hsym => exact ⟨none, seen, rfl⟩
      | hnull => exact ⟨some "null", seen, rfl⟩
      | hbool b => exact ⟨some (if b then "true" else "false"), seen, rfl⟩
      | hnum n => exact ⟨some (toString n), seen, rfl⟩
      | hstr s => exact ⟨some (quoteStr s), seen, rfl⟩
      | href a =>
        by_cases hsn : a ∈ seen
        · exact ⟨some (quoteStr "[Circular Reference]"), seen, by simp [serGo, hsn]⟩
        · cases hga : h[a]? with
          | none => exact ⟨none, seen, by simp [serGo, hsn, hga]⟩
          | some o =>
            have hlt : a < h.length := by
              rcases List.getElem?_eq_some.mp hga with ⟨hl, _⟩
              exact hl
            have hcons := countUnseen_cons hlt hsn
            have hrl : rowLen o ≤ maxRowLen h := rowLen_le_max hga
            have hexp : countUnseen h seen * (2 + maxRowLen h) =
                countUnseen h (a :: seen) * (2 + maxRowLen h) + (2 + maxRowLen h) := by
              rw [hcons]; ring
            cases o with
            | harr elems =>
              have hfuel2 : 1 + elems.length +
                  countUnseen h (a :: seen) * (2 + maxRowLen h) ≤ f := by
                simp [rowLen] at hrl
                omega
              obtain ⟨ss, seen1, hsub⟩ := (ih h gap (a :: seen) (cur ++ gap)).2.1 elems hfuel2
              exact ⟨some (wrapMembers "[" "]" gap cur ss), seen1,
                by simp [serGo, hsn, hga, hsub]⟩
            | hobj fields =>
              have hfuel2 : 1 + fields.length +
                  countUnseen h (a :: seen) * (2 + maxRowLen h) ≤ f := by
                simp [rowLen] at hrl
                omega
              obtain ⟨ss, seen1, hsub⟩ := (ih h gap (a :: seen) (cur ++ gap)).2.2 fields hfuel2
              exact ⟨some (wrapMembers "\x7b" "\x7d" gap cur ss), seen1,
                by simp [serGo, hsn, hga, hsub]⟩
    · intro vs hle
      cases vs with
      | nil => exact ⟨[], seen, rfl⟩
      | cons v vs =>
        have hfe1 : 1 + countUnseen h seen * (2 + maxRowLen h) ≤ f := by
          simp only [List.length_cons] at hle
          omega
        obtain ⟨s1, seen1, hsub1⟩ := (ih h gap seen cur).1 v hfe1
        have hgrow := serGo_seen_grow f h gap seen cur (.val v) (.one s1, seen1) hsub1
        have hm := countUnseen_mono h hgrow
        have hmm : countUnseen h seen1 * (2 + maxRowLen h) ≤
            countUnseen h seen * (2 + maxRowLen h) := Nat.mul_le_mul_right _ hm
        have hfe2 : 1 + vs.length + countUnseen h seen1 * (2 + maxRowLen h) ≤ f := by
          simp only [List.length_cons] at hle
          omega
        obtain ⟨ss, seen2, hsub2⟩ := (ih h gap seen1 cur).2.1 vs hfe2
        exact ⟨(s1.getD "null") :: ss, seen2, by simp [serGo, hsub1, hsub2]⟩
    · intro fs hle
      cases fs with
      | nil => exact ⟨[], seen, rfl⟩
      | cons kv fs =>
        obtain ⟨k, v⟩ := kv
        have hfe1 : 1 + countUnseen h seen * (2 + maxRowLen h) ≤ f := by
          simp only [List.length_cons] at hle
          omega
        obtain ⟨s1, seen1, hsub1⟩ := (ih h gap seen cur).1 v hfe1
        have hgrow := serGo_seen_grow f h gap seen cur (.val v) (.one s1, seen1) hsub1
        have hm := countUnseen_mono h hgrow
        have hmm : countUnseen h seen1 * (2 + maxRowLen h) ≤
            countUnseen h seen * (2 + maxRowLen h) := Nat.mul_le_mul_right _ hm
        have hfe2 : 1 + fs.length + countUnseen h seen1 * (2 + maxRowLen h) ≤ f := by
          simp only [List.length_cons] at hle
          omega
        obtain ⟨ss, seen2, hsub2⟩ := (ih h gap seen1 cur).2.2 fs hfe2
        cases s1 with
        | none => exact ⟨ss, seen2, by simp [serGo, hsub1, hsub2]⟩
        | some s =>
          exact ⟨(quoteStr k ++ (if gap = "" then ":" else ": ") ++ s) :: ss, seen2,
            by simp [serGo, hsub1, hsub2]⟩

/-- The guarded serializer always succeeds with the fuel safeStringify
supplies, for every heap (cyclic or not) and every start value. -/
theorem serGo_total (h : Heap) (gap : String) (v : HVal) (cur : String) :
    ∃ s seen1, serGo h gap (serFuel h) [] cur (.val v) = some (.one s, seen1) := by
  apply (serGo_some (serFuel h) h gap [] cur).1
  have h1 : countUnseen h [] ≤ h.length := countUnseen_le h []
  have h2 : countUnseen h [] * (2 + maxRowLen h) ≤ h.length * (2 + maxRowLen h) :=
    Nat.mul_le_mul_right _ h1
  simp only [serFuel]
  omega

theorem encItemsHeap_length_of (xs : List JsValue)
    (hx : ∀ x ∈ xs, ∀ c : Nat, (encHeap x c).length = encSize x) :
    ∀ b : Nat, (encItemsHeap xs b).length = encSizeItems xs := by
  induction xs with
  | nil => intro b; rfl
  | cons x t ih =>
    intro b
    simp [encItemsHeap, encSizeItems, List.length_append, hx x (List.mem_cons_self x t) b,
      ih fun y hy => hx y (List.mem_cons_of_mem x hy)]

theorem encFieldsHeap_length_of (fs : List (String × JsValue))
    (hx : ∀ kv ∈ fs, ∀ c : Nat, (encHeap kv.2 c).length = encSize kv.2) :
    ∀ b : Nat, (encFieldsHeap fs b).length = encSizeFields fs := by
  induction fs with
  | nil => intro b; rfl
  | cons kv t ih =>
    obtain ⟨k, v⟩ := kv
    intro b
    simp [encFieldsHeap, encSizeFields, List.length_append,
      hx (k, v) (List.mem_cons_self (k, v) t) b,
      ih fun y hy => hx y (List.mem_cons_of_mem (k, v) hy)]

theorem encHeap_length : ∀ (j : JsValue) (b : Nat), (encHeap j b).length = encSize j := by
  have main : ∀ (n : Nat) (j : JsValue), sizeOf j ≤ n →
      ∀ b : Nat, (encHeap j b).length = encSize j := by
    intro n
    induction n with
    | zero =>
      intro j hj
      exfalso
      cases j <;> simp at hj
    | succ n ih =>
      intro j hj b
      cases j with
      | undef => rfl
      | null => rfl
      | bool b2 => rfl
      | num n2 => rfl
      | str s => rfl
      | arr xs =>
        have hsz : sizeOf xs ≤ n := by
          simp at hj
          omega
        have hx : ∀ x ∈ xs, ∀ c : Nat, (encHeap x c).length = encSize x := by
          intro x hmem c
          have hs := List.sizeOf_lt_of_mem hmem
          exact ih x (by omega) c
        simp [encHeap, encSize, encItemsHeap_length_of xs hx (b + 1)]
        omega
      | obj fs =>
        have hsz : sizeOf fs ≤ n := by
          simp at hj
          omega
        have hx : ∀ kv ∈ fs, ∀ c : Nat, (encHeap kv.2 c).length = encSize kv.2 := by
          intro kv hmem c
          have hs := List.sizeOf_lt_of_mem hmem
          obtain ⟨k, v⟩ := kv
          have hv : sizeOf v < sizeOf (k, v) := by
            simp
          exact ih v (by simp at hs hv ⊢; omega) c
        simp [encHeap, encSize, encFieldsHeap_length_of fs hx (b + 1)]
        omega
  intro j b
  exact main (sizeOf j) j le_rfl b

theorem encItemsHeap_length (xs : List JsValue) (b : Nat) :
    (encItemsHeap xs b).length = encSizeItems xs :=
  encItemsHeap_length_of xs (fun x _ c => encHeap_length x c) b

theorem encFieldsHeap_length (fs : List (String × JsValue)) (b : Nat) :
    (encFieldsHeap fs b).length = encSizeFields fs :=
  encFieldsHeap_length_of fs (fun kv _ c => encHeap_length kv.2 c) b

theorem EncAt.arr_head {h : Heap} {xs : List JsValue} {base : Nat}
    (he : EncAt h (.arr xs) base) :
    h[base]? = some (.harr (encItemsRow xs (base + 1))) := by
  have h0 := he 0 (by simp [encSize])
  simpa [encHeap] using h0

theorem EncAt.arr_items {h : Heap} {xs : List JsValue} {base : Nat}
    (he : EncAt h (.arr xs) base) : EncAtItems h xs (base + 1) := by
  intro i hi
  have hx := he (1 + i) (by simp [encSize]; omega)
  have heq : base + (1 + i) = (base + 1) + i := by omega
  rw [heq] at hx
  rw [hx]
  simp [encHeap]
  rw [Nat.add_comm 1 i, List.getElem?_cons_succ]

theorem EncAt.obj_head {h : Heap} {fs : List (String × JsValue)} {base : Nat}
    (he : EncAt h (.obj fs) base) :
    h[base]? = some (.hobj (encFieldsRow fs (base + 1))) := by
  have h0 := he 0 (by simp [encSize])
  simpa [encHeap] using h0

theorem EncAt.obj_fields {h : Heap} {fs : List (String × JsValue)} {base : Nat}
    (he : EncAt h (.obj fs) base) : EncAtFields h fs (base + 1) := by
  intro i hi
  have hx := he (1 + i) (by simp [encSize]; omega)
  have heq : base + (1 + i) = (base + 1) + i := by omega
  rw [heq] at hx
  rw [hx]
  simp [encHeap]
  rw [Nat.add_comm 1 i, List.getElem?_cons_succ]

theorem encAtItems_head {h : Heap} {x : JsValue} {xs : List JsValue} {b : Nat}
    (he : EncAtItems h (x :: xs) b) : EncAt h x b := by
  intro i hi
  have hx := he i (by simp [encSizeItems]; omega)
  rw [hx]
  simp only [encItemsHeap]
  rw [List.getElem?_append]
  rw [if_pos (by rw [encHeap_length]; omega)]

theorem encAtItems_tail {h : Heap} {x : JsValue} {xs : List JsValue} {b : Nat}
    (he : EncAtItems h (x :: xs) b) : EncAtItems h xs (b + encSize x) := by
  intro i hi
  have hx := he (encSize x + i) (by simp [encSizeItems]; omega)
  have heq : b + (encSize x + i) = (b + encSize x) + i := by omega
  rw [heq] at hx
  rw [hx]
  simp only [encItemsHeap]
  rw [List.getElem?_append_right (by rw [encHeap_length]; omega)]
  congr 1
  rw [encHeap_length]
  omega

theorem encAtFields_head {h : Heap} {k : String} {v : JsValue}
    {fs : List (String × JsValue)} {b : Nat}
    (he : EncAtFields h ((k, v) :: fs) b) : EncAt h v b := by
  intro i hi
  have hx := he i (by simp [encSizeFields]; omega)
  rw [hx]
  simp only [encFieldsHeap]
  rw [List.getElem?_append]
  rw [if_pos (by rw [encHeap_length]; omega)]

theorem encAtFields_tail {h : Heap} {k : String} {v : JsValue}
    {fs : List (String × JsValue)} {b : Nat}
    (he : EncAtFields h ((k, v) :: fs) b) : EncAtFields h fs (b + encSize v) := by
  intro i hi
  have hx := he (encSize v + i) (by simp [encSizeFields]; omega)
  have heq : b + (encSize v + i) = (b + encSize v) + i := by omega
  rw [heq] at hx
  rw [hx]
  simp only [encFieldsHeap]
  rw [List.getElem?_append_right (by rw [encHeap_length]; omega)]
  congr 1
  rw [encHeap_length]
  omega

/-- On a tree laid out in the heap with its region untouched by the seen
set, the guarded serializer computes exactly the plain JSON.stringify
rendering, and only visits addresses of that region. -/
theorem serGo_enc_agree : ∀ (fuel : Nat) (h : Heap) (gap : String) (seen : List Nat)
    (cur : String),
    (∀ (j : JsValue) (base : Nat) (res : SerOut × List Nat),
      EncAt h j base → RegionFree seen base (encSize j) →
      serGo h gap fuel seen cur (.val (encVal j base)) = some res →
      res.1 = .one (stringifyVal gap cur j) ∧
      ∀ a ∈ res.2, a ∈ seen ∨ (base ≤ a ∧ a < base + encSize j)) ∧
    (∀ (xs : List JsValue) (b : Nat) (res : SerOut × List Nat),
      EncAtItems h xs b → RegionFree seen b (encSizeItems xs) →
      serGo h gap fuel seen cur (.items (encItemsRow xs b)) = some res →
      res.1 = .many (stringifyItems gap cur xs) ∧
      ∀ a ∈ res.2, a ∈ seen ∨ (b ≤ a ∧ a < b + encSizeItems xs)) ∧
    (∀ (fs : List (String × JsValue)) (b : Nat) (res : SerOut × List Nat),
      EncAtFields h fs b → RegionFree seen b (encSizeFields fs) →
      serGo h gap fuel seen cur (.fields (encFieldsRow fs b)) = some res →
      res.1 = .many (stringifyFields gap cur fs) ∧
      ∀ a ∈ res.2, a ∈ seen ∨ (b ≤ a ∧ a < b + encSizeFields fs)) := by
  intro fuel
  induction fuel with
  | zero =>
    intro h gap seen cur
    refine ⟨?_, ?_, ?_⟩ <;> intro x b res he hrf hgo <;> simp [serGo] at hgo
  | succ f ih =>
    intro h gap seen cur
    refine ⟨?_, ?_, ?_⟩
    · intro j base res he hrf hgo
      cases j with
      | undef =>
        simp only [encVal, serGo, Option.some.injEq] at hgo
        subst hgo
        exact ⟨rfl, fun a ha => Or.inl ha⟩
      | null =>
        simp only [encVal, serGo, Option.some.injEq] at hgo
        subst hgo
        exact ⟨rfl, fun a ha => Or.inl ha⟩
      | bool b2 =>
        simp only [encVal, serGo, Option.some.injEq] at hgo
        subst hgo
        exact ⟨rfl, fun a ha => Or.inl ha⟩
      | num n2 =>
        simp only [encVal, serGo, Option.some.injEq] at hgo
        subst hgo
        exact ⟨rfl, fun a ha => Or.inl ha⟩
      | str s =>
        simp only [encVal, serGo, Option.some.injEq] at hgo
        subst hgo
        exact ⟨rfl, fun a ha => Or.inl ha⟩
      | arr xs =>
        have hbase : base ∉ seen := hrf base le_rfl (by simp [encSize])
        simp only [encVal, serGo] at hgo
        rw [if_neg hbase, he.arr_head] at hgo
        dsimp only at hgo
        cases hsub : serGo h gap f (base :: seen) (cur ++ gap)
            (.items (encItemsRow xs (base + 1))) with
        | none => rw [hsub] at hgo; simp at hgo
        | some res2 =>
          obtain ⟨o2, s2⟩ := res2
          cases o2 with
          | one s1 => rw [hsub] at hgo; simp at hgo
          | many ss =>
            rw [hsub] at hgo
            dsimp only at hgo
            simp only [Option.some.injEq] at hgo
            subst hgo
            have hrf2 : RegionFree (base :: seen) (base + 1) (encSizeItems xs) := by
              intro a ha1 ha2
              simp only [List.mem_cons]
              rintro (rfl | hmem)
              · omega
              · exact hrf a (by omega) (by simp [encSize]; omega) hmem
            obtain ⟨hi1, hi2⟩ := (ih h gap (base :: seen) (cur ++ gap)).2.1 xs (base + 1)
              (.many ss, s2) he.arr_items hrf2 hsub
            simp only [SerOut.many.injEq] at hi1
            refine ⟨by simp [stringifyVal, hi1], ?_⟩
            intro a ha
            rcases hi2 a ha with hmem | hreg
            · rcases List.mem_cons.mp hmem with rfl | hmem2
              · exact Or.inr ⟨le_rfl, by simp [encSize]⟩
              · exact Or.inl hmem2
            · exact Or.inr ⟨by omega, by simp [encSize]; omega⟩
      | obj fs =>
        have hbase : base ∉ seen := hrf base le_rfl (by simp [encSize])
        simp only [encVal, serGo] at hgo
        rw [if_neg hbase, he.obj_head] at hgo
        dsimp only at hgo
        cases hsub : serGo h gap f (base :: seen) (cur ++ gap)
            (.fields (encFieldsRow fs (base + 1))) with
        | none => rw [hsub] at hgo; simp at hgo
        | some res2 =>
          obtain ⟨o2, s2⟩ := res2
          cases o2 with
          | one s1 => rw [hsub] at hgo; simp at hgo
          | many ss =>
            rw [hsub] at hgo
            dsimp only at hgo
            simp only [Option.some.injEq] at hgo
            subst hgo
            have hrf2 : RegionFree (base :: seen) (base + 1) (encSizeFields fs) := by
              intro a ha1 ha2
              simp only [List.mem_cons]
              rintro (rfl | hmem)
              · omega
              · exact hrf a (by omega) (by simp [encSize]; omega) hmem
            obtain ⟨hi1, hi2⟩ := (ih h gap (base :: seen) (cur ++ gap)).2.2 fs (base + 1)
              (.many ss, s2) he.obj_fields hrf2 hsub
            simp only [SerOut.many.injEq] at hi1
            refine ⟨by simp [stringifyVal, hi1], ?_⟩
            intro a ha
            rcases hi2 a ha with hmem | hreg
            · rcases List.mem_cons.mp hmem with rfl | hmem2
              · exact Or.inr ⟨le_rfl, by simp [encSize]⟩
              · exact Or.inl hmem2
            · exact Or.inr ⟨by omega, by simp [encSize]; omega⟩
    · intro xs b res he hrf hgo
      cases xs with
      | nil =>
        simp only [encItemsRow, serGo, Option.some.injEq] at hgo
        subst hgo
        exact ⟨rfl, fun a ha => Or.inl ha⟩
      | cons x xs =>
        simp only [encItemsRow, serGo] at hgo
        cases hsub1 : serGo h gap f seen cur (.val (encVal x b)) with
        | none => rw [hsub1] at hgo; simp at hgo
        | some res1 =>
          obtain ⟨o1, s1⟩ := res1
          cases o1 with
          | many ss0 => rw [hsub1] at hgo; simp at hgo
          | one sv =>
            rw [hsub1] at hgo
            dsimp only at hgo
            obtain ⟨hv1, hv2⟩ := (ih h gap seen cur).1 x b (.one sv, s1) (encAtItems_head he)
              (fun a ha1 ha2 => hrf a ha1 (by simp [encSizeItems]; omega)) hsub1
            simp only [SerOut.one.injEq] at hv1
            have hrf2 : RegionFree s1 (b + encSize x) (encSizeItems xs) := by
              intro a ha1 ha2 hmem
              rcases hv2 a hmem with hmem2 | hreg
              · exact hrf a (by omega) (by simp [encSizeItems]; omega) hmem2
              · omega
            cases hsub2 : serGo h gap f s1 cur (.items (encItemsRow xs (b + encSize x))) with
            | none => rw [hsub2] at hgo; simp at hgo
            | some res2 =>
              obtain ⟨o2, s2⟩ := res2
              cases o2 with
              | one s0 => rw [hsub2] at hgo; simp at hgo
              | many ss =>
                rw [hsub2] at hgo
                dsimp only at hgo
                simp only [Option.some.injEq] at hgo
                subst hgo
                obtain ⟨hi1, hi2⟩ := (ih h gap s1 cur).2.1 xs (b + encSize x)
                  (.many ss, s2) (encAtItems_tail he) hrf2 hsub2
                simp only [SerOut.many.injEq] at hi1
                refine ⟨by simp [stringifyItems, hv1, hi1], ?_⟩
                intro a ha
                rcases hi2 a ha with hmem | hreg
                · rcases hv2 a hmem with hmem2 | hreg2
                  · exact Or.inl hmem2
                  · exact Or.inr ⟨by omega, by simp [encSizeItems]; omega⟩
                · exact Or.inr ⟨by omega, by simp [encSizeItems]; omega⟩
    · intro fs b res he hrf hgo
      cases fs with
      | nil =>
        simp only [encFieldsRow, serGo, Option.some.injEq] at hgo
        subst hgo
        exact ⟨rfl, fun a ha => Or.inl ha⟩
      | cons kv fs =>
        obtain ⟨k, v⟩ := kv
        simp only [encFieldsRow, serGo] at hgo
        cases hsub1 : serGo h gap f seen cur (.val (encVal v b)) with
        | none => rw [hsub1] at hgo; simp at hgo
        | some res1 =>
          obtain ⟨o1, s1⟩ := res1
          cases o1 with
          | many ss0 => rw [hsub1] at hgo; simp at hgo
          | one sv =>
            rw [hsub1] at hgo
            dsimp only at hgo
            obtain ⟨hv1, hv2⟩ := (ih h gap seen cur).1 v b (.one sv, s1) (encAtFields_head he)
              (fun a ha1 ha2 => hrf a ha1 (by simp [encSizeFields]; omega)) hsub1
            simp only [SerOut.one.injEq] at hv1
            have hrf2 : RegionFree s1 (b + encSize v) (encSizeFields fs) := by
              intro a ha1 ha2 hmem
              rcases hv2 a hmem with hmem2 | hreg
              · exact hrf a (by omega) (by simp [encSizeFields]; omega) hmem2
              · omega
            cases hsub2 : serGo h gap f s1 cur (.fields (encFieldsRow fs (b + encSize v))) with
            | none => rw [hsub2] at hgo; simp at hgo
            | some res2 =>
              obtain ⟨o2, s2⟩ := res2
              cases o2 with
              | one s0 => rw [hsub2] at hgo; simp at hgo
              | many ss =>
                rw [hsub2] at hgo
                dsimp only at hgo
                obtain ⟨hi1, hi2⟩ := (ih h gap s1 cur).2.2 fs (b + encSize v)
                  (.many ss, s2) (encAtFields_tail he) hrf2 hsub2
                simp only [SerOut.many.injEq] at hi1
                have hmemout : ∀ a ∈ s2, a ∈ seen ∨ (b ≤ a ∧ a < b + encSizeFields ((k, v) :: fs)) := by
                  intro a ha
                  rcases hi2 a ha with hmem | hreg
                  · rcases hv2 a hmem with hmem2 | hreg2
                    · exact Or.inl hmem2
                    · exact Or.inr ⟨by omega, by simp [encSizeFields]; omega⟩
                  · exact Or.inr ⟨by omega, by simp [encSizeFields]; omega⟩
                cases sv with
                | none =>
                  dsimp only at hgo
                  simp only [Option.some.injEq] at hgo
                  subst hgo
                  refine ⟨?_, hmemout⟩
                  simp [stringifyFields, ← hv1, hi1]
                | some s =>
                  dsimp only at hgo
                  simp only [Option.some.injEq] at hgo
                  subst hgo
                  refine ⟨?_, hmemout⟩
                  simp [stringifyFields, ← hv1, hi1]

/-! ## Claim theorems -/

/-- Claim C1: for a configured client, makeRequest classifies every failure
into exactly one typed error: 401 to Authentication, 404 to NotFound, 5xx to
ExternalService, any other non-2xx to ExternalService carrying the literal
status and status text, a 2xx body that does not parse as JSON to
ExternalService, and a transport-level TypeError thrown by fetch to
Network. -/
theorem C1_make_request_classification (cfg : SisenseConfig) (h : cfg.isConfigured = true)
    (ep : String) (opts : RequestOptions) :
    (∀ r : HttpResponse, r.status = 401 →
      (makeRequest cfg ep opts (fun _ => .resp r)).1 =
        .error ⟨.authentication, "Sisense authentication failed",
          mkErrorContextResp (stripTrailingSlash cfg.url ++ ep) r (opts.method.getD "GET")⟩) ∧
    (∀ r : HttpResponse, r.status = 404 →
      (makeRequest cfg ep opts (fun _ => .resp r)).1 =
        .error ⟨.notFound, "Sisense resource not found",
          mkErrorContextResp (stripTrailingSlash cfg.url ++ ep) r (opts.method.getD "GET")⟩) ∧
    (∀ r : HttpResponse, 500 ≤ r.status →
      (makeRequest cfg ep opts (fun _ => .resp r)).1 =
        .error ⟨.externalService, "Sisense server error",
          mkErrorContextResp (stripTrailingSlash cfg.url ++ ep) r (opts.method.getD "GET")⟩) ∧
    (∀ r : HttpResponse, respOk r = false → r.status ≠ 401 → r.status ≠ 404 → r.status < 500 →
      (makeRequest cfg ep opts (fun _ => .resp r)).1 =
        .error ⟨.externalService,
          "Sisense API error: " ++ toString r.status ++ " " ++ r.statusText,
          mkErrorContextResp (stripTrailingSlash cfg.url ++ ep) r (opts.method.getD "GET")⟩ ∧
      getField (mkErrorContextResp (stripTrailingSlash cfg.url ++ ep) r (opts.method.getD "GET"))
          "status" = .num r.status ∧
      getField (mkErrorContextResp (stripTrailingSlash cfg.url ++ ep) r (opts.method.getD "GET"))
          "statusText" = .str r.statusText) ∧
    (∀ r : HttpResponse, respOk r = true → safeParse r.body = none →
      resultKind (makeRequest cfg ep opts (fun _ => .resp r)) = some .externalService) ∧
    (∀ msg : String, containsSub "fetch" msg = true →
      resultKind (makeRequest cfg ep opts (fun _ => .thrown "TypeError" msg)) = some .network) := by
  have hc : (¬cfg.isConfigured = true) = False := by simp [h]
  refine ⟨?_, ?_, ?_, ?_, ?_, ?_⟩
  · intro r h401
    have hok : respOk r = false := by simp [respOk, h401]
    simp [makeRequest, hc, hok, h401]
  · intro r h404
    have hok : respOk r = false := by simp [respOk, h404]
    simp [makeRequest, hc, hok, h404]
  · intro r h500
    have hok : respOk r = false := by simp [respOk]; omega
    have h401 : ¬r.status = 401 := by omega
    have h404 : ¬r.status = 404 := by omega
    simp [makeRequest, hc, hok, h401, h404, h500]
  · intro r hok h401 h404 h500
    refine ⟨?_, rfl, rfl⟩
    have h500n : ¬500 ≤ r.status := by omega
    simp [makeRequest, hc, hok, h401, h404, h500n]
  · intro r hok hparse
    simp [makeRequest, resultKind, hc, hok, hparse]
  · intro msg hmsg
    simp [makeRequest, resultKind, hc, hmsg]

/-- Claim C1 witness: the 401 scenario at the test configuration. -/
theorem C1_make_request_classification_witness :
    (makeRequest cfgTest "/api/v1/server/info" .none0
        (fun _ => .resp ⟨401, "Unauthorized", "Unauthorized"⟩)).1 =
      .error ⟨.authentication, "Sisense authentication failed",
        mkErrorContextResp "https://test-sisense.com/api/v1/server/info"
          ⟨401, "Unauthorized", "Unauthorized"⟩ "GET"⟩ :=
  (C1_make_request_classification cfgTest rfl "/api/v1/server/info" .none0).1
    ⟨401, "Unauthorized", "Unauthorized"⟩ rfl

/-- Claim C2 counterexample: the claim says every primitive input is wrapped
under a value key, but for the primitive null (whose JS typeof is 'object')
validateInput stores the input unwrapped. -/
theorem C2_null_input_not_wrapped :
    (exContext (validateInput dashboardIdSchema .null)).map (fun c => getField c "input") =
      some JsValue.null ∧
    JsValue.null ≠ JsValue.obj [("value", JsValue.null)] :=
  ⟨rfl, fun h => JsValue.noConfusion h⟩

/-- Claim C2 (amended): for every input a schema rejects, validateInput fails
with a Validation error whose context lists, per violated field, its path,
human message and machine rule code, plus the original input — wrapped under
a value key when its JS typeof is not 'object' (null, arrays and objects are
stored as-is); in particular the empty identifier string yields a Validation
error whose context lists the failing (root) field path. -/
theorem C2_validation_error_context {α : Type} (schema : JsValue → Except (List ZIssue) α)
    (input : JsValue) (issues : List ZIssue) (h : schema input = .error issues) :
    validateInput schema input = .error
      { kind := .validation
        message := "Input validation failed"
        context := .obj
          [("errors", .arr (issues.map fun e => .obj
              [("path", .str (String.intercalate "." e.path)),
               ("message", .str e.message),
               ("code", .str e.code)])),
           ("input", if typeofIsObject input then input else .obj [("value", input)])] } ∧
    dashboardIdSchema (.str "") =
      .error [⟨[], "Dashboard ID cannot be empty", "too_small"⟩] ∧
    validateDashboardId (.str "") = .error
      { kind := .validation
        message := "Input validation failed"
        context := .obj
          [("errors", .arr [.obj
              [("path", .str ""),
               ("message", .str "Dashboard ID cannot be empty"),
               ("code", .str "too_small")]]),
           ("input", .obj [("value", .str "")])] } := by
  refine ⟨?_, rfl, rfl⟩
  simp [validateInput, h]

/-- Claim C2 witness: the amended theorem applied at the empty identifier. -/
theorem C2_validation_error_context_witness :
    validateInput dashboardIdSchema (.str "") = .error
      { kind := .validation
        message := "Input validation failed"
        context := .obj
          [("errors", .arr [.obj
              [("path", .str ""),
               ("message", .str "Dashboard ID cannot be empty"),
               ("code", .str "too_small")]]),
           ("input", .obj [("value", .str "")])] } :=
  (C2_validation_error_context dashboardIdSchema (.str "")
    [⟨[], "Dashboard ID cannot be empty", "too_small"⟩] rfl).1

/-- Claim C3 counterexample: on the unconfigured client, the domain method
dashboard(id) called with the empty id fails with a Validation error, not the
Configuration error the claim asserts for every domain method call. -/
theorem C3_invalid_id_beats_configuration :
    resultKind (getDashboard cfgEmpty "" fetchStub) = some .validation ∧
    ErrorKind.validation ≠ ErrorKind.configuration :=
  ⟨rfl, fun h => ErrorKind.noConfusion h⟩

/-- Claim C3 (amended): on the unconfigured client (empty url and credential)
every domain method whose arguments pass their schema fails with a
Configuration error and issues no request; a method whose argument fails its
schema fails with a Validation error, likewise issuing no request. -/
theorem C3_unconfigured_no_request (fetchImpl : HttpRequest → FetchOutcome) :
    (resultKind (getServerInfo cfgEmpty fetchImpl) = some .configuration ∧
      (getServerInfo cfgEmpty fetchImpl).2 = []) ∧
    (resultKind (getDataSources cfgEmpty fetchImpl) = some .configuration ∧
      (getDataSources cfgEmpty fetchImpl).2 = []) ∧
    (resultKind (getDashboards cfgEmpty fetchImpl) = some .configuration ∧
      (getDashboards cfgEmpty fetchImpl).2 = []) ∧
    (resultKind (getCubes cfgEmpty fetchImpl) = some .configuration ∧
      (getCubes cfgEmpty fetchImpl).2 = []) ∧
    (∀ id : String, id ≠ "" →
      resultKind (getDashboard cfgEmpty id fetchImpl) = some .configuration ∧
      (getDashboard cfgEmpty id fetchImpl).2 = []) ∧
    (∀ id : String, id ≠ "" →
      resultKind (getDashboardWidgets cfgEmpty id fetchImpl) = some .configuration ∧
      (getDashboardWidgets cfgEmpty id fetchImpl).2 = []) ∧
    (∀ id : String, id ≠ "" →
      resultKind (getCubeMetadata cfgEmpty id fetchImpl) = some .configuration ∧
      (getCubeMetadata cfgEmpty id fetchImpl).2 = []) ∧
    (∀ q vq, validateQuery q = .ok vq →
      resultKind (executeQuery cfgEmpty q fetchImpl) = some .configuration ∧
      (executeQuery cfgEmpty q fetchImpl).2 = []) ∧
    (resultKind (getDashboard cfgEmpty "" fetchImpl) = some .validation ∧
      (getDashboard cfgEmpty "" fetchImpl).2 = []) ∧
    (∀ q e, validateQuery q = .error e →
      executeQuery cfgEmpty q fetchImpl = (.error e, [])) := by
  refine ⟨⟨rfl, rfl⟩, ⟨rfl, rfl⟩, ⟨rfl, rfl⟩, ⟨rfl, rfl⟩, ?_, ?_, ?_, ?_, ⟨rfl, rfl⟩, ?_⟩
  · intro id hid
    simp [getDashboard, validateDashboardId, validateInput, dashboardIdSchema,
      nonEmptyStringSchema, hid, makeRequest, resultKind, cfgEmpty, SisenseConfig.isConfigured]
  · intro id hid
    simp [getDashboardWidgets, validateDashboardId, validateInput, dashboardIdSchema,
      nonEmptyStringSchema, hid, makeRequest, resultKind, cfgEmpty, SisenseConfig.isConfigured]
  · intro id hid
    simp [getCubeMetadata, validateCubeId, validateInput, cubeIdSchema,
      nonEmptyStringSchema, hid, makeRequest, resultKind, cfgEmpty, SisenseConfig.isConfigured]
  · intro q vq hq
    simp [executeQuery, hq, makeRequest, resultKind, cfgEmpty, SisenseConfig.isConfigured]
  · intro q e hq
    simp [executeQuery, hq]

/-- Claim C3 witness: the amended theorem at the fetch stub with a valid id. -/
theorem C3_unconfigured_no_request_witness :
    resultKind (getDashboard cfgEmpty "123" fetchStub) = some .configuration ∧
    (getDashboard cfgEmpty "123" fetchStub).2 = [] :=
  (C3_unconfigured_no_request fetchStub).2.2.2.2.1 "123" (by decide)

/-- Claim C4: listing resources never propagates an error — unconfigured
clients and any failure of the dashboards call (typed or not) both yield the
empty list; on success each dashboard maps to a descriptor named by its
title, with the synthesized Dashboard-id name when the title is absent or
otherwise falsy. -/
theorem C4_list_resources_never_fails (svc : ServiceOracle) :
    (svc.configured = false → getAvailableResources svc = []) ∧
    (∀ ex, svc.dashboards = .error ex → getAvailableResources svc = []) ∧
    (∀ ds rs, svc.configured = true → svc.dashboards = .ok (.arr ds) →
      mapOrThrow descriptorOf ds = some rs → getAvailableResources svc = rs) ∧
    (∀ d r, descriptorOf d = some r → jsTruthy (getField d "title") = true →
      r.name = getField d "title") ∧
    (∀ d r, descriptorOf d = some r → jsTruthy (getField d "title") = false →
      r.name = .str ("Dashboard " ++ jsToString (getField d "oid"))) := by
  refine ⟨?_, ?_, ?_, ?_, ?_⟩
  · intro h
    simp [getAvailableResources, h]
  · intro ex h
    cases hc : svc.configured <;> simp [getAvailableResources, h, hc]
  · intro ds rs hc h hm
    simp [getAvailableResources, h, hc, hm]
  · intro d r hd ht
    cases d <;> simp [descriptorOf] at hd <;> rw [← hd] <;> simp [ht]
  · intro d r hd ht
    cases d <;> simp [descriptorOf] at hd <;> rw [← hd] <;> simp [ht]

/-- Claim C4 witness: a throwing dashboards call yields the empty list. -/
theorem C4_list_resources_never_fails_witness :
    getAvailableResources svcThrowing = [] :=
  (C4_list_resources_never_fails svcThrowing).2.1 (.other "Error" "boom") rfl

/-- Claim C5: readResource parses sisense://dashboard/123 to the dashboard
kind with id 123 and returns one content block tagged with the URI and the
application/json mime type; sisense://cube/456 fails with the unsupported
resource type error naming the kind; invalid-uri and sisense://dashboard
fail with errors naming the literal malformed URI. -/
theorem C5_read_resource_parsing (svc : ServiceOracle) (d : JsValue)
    (h : svc.dashboard "123" = .ok d) :
    readResource svc "sisense://dashboard/123" =
      (.ok { contents := [{ uri := "sisense://dashboard/123"
                            mimeType := "application/json"
                            text := safeStringifyTree d (some 2) }] },
       [.dashboard "123"]) ∧
    readResource svc "sisense://cube/456" =
      (.error (.other "Error" "Unsupported resource type: cube"), []) ∧
    readResource svc "invalid-uri" =
      (.error (.other "Error" "Unsupported resource URI: invalid-uri"), []) ∧
    readResource svc "sisense://dashboard" =
      (.error (.other "Error" "Invalid resource URI: sisense://dashboard"), []) := by
  refine ⟨?_, rfl, rfl, rfl⟩
  have hr : readResource svc "sisense://dashboard/123" =
      (match svc.dashboard "123" with
       | .error e => (.error e, [.dashboard "123"])
       | .ok data =>
         (.ok { contents := [{ uri := "sisense://dashboard/123"
                               mimeType := "application/json"
                               text := safeStringifyTree data (some 2) }] },
          [.dashboard "123"])) := rfl
  rw [hr, h]

/-- Claim C5 witness: the theorem at the stub oracle. -/
theorem C5_read_resource_parsing_witness :
    readResource svcStub "sisense://dashboard/123" =
      (.ok { contents := [{ uri := "sisense://dashboard/123"
                            mimeType := "application/json"
                            text := safeStringifyTree (.obj [("oid", .str "123")]) (some 2) }] },
       [.dashboard "123"]) :=
  (C5_read_resource_parsing svcStub (.obj [("oid", .str "123")]) rfl).1

/-- Claim C6: every tool requiring an argument rejects a missing or wrongly
typed argument with a descriptive error naming the argument, before any
service method (and hence any network call) is involved; in particular
execute_query with empty arguments fails naming the missing query
argument. -/
theorem C6_tool_argument_gate (svc : ServiceOracle) (args : List (String × JsValue)) :
    (isJsString (argGet args "dashboardId") = false →
      callTool svc "get_dashboard" args =
        (.error (.other "Error" "dashboardId is required and must be a string"), []) ∧
      callTool svc "get_dashboard_widgets" args =
        (.error (.other "Error" "dashboardId is required and must be a string"), [])) ∧
    (isJsString (argGet args "cubeId") = false →
      callTool svc "get_cube_metadata" args =
        (.error (.other "Error" "cubeId is required and must be a string"), [])) ∧
    (typeofIsObject (argGet args "query") = false →
      callTool svc "execute_query" args =
        (.error (.other "Error" "query is required and must be an object"), [])) ∧
    callTool svc "execute_query" [] =
      (.error (.other "Error" "query is required and must be an object"), []) := by
  refine ⟨?_, ?_, ?_, rfl⟩
  · intro hs
    constructor <;> simp [callTool, argFailsString, hs]
  · intro hs
    simp [callTool, argFailsString, hs]
  · intro ho
    simp [callTool, argFailsObject, ho]

/-- Claim C6 witness: execute_query with an argument map lacking query. -/
theorem C6_tool_argument_gate_witness :
    callTool svcStub "execute_query" [("other", .num 1)] =
      (.error (.other "Error" "query is required and must be an object"), []) :=
  (C6_tool_argument_gate svcStub [("other", .num 1)]).2.2.1 rfl

/-- Claim C8 counterexample: construction fails with a Configuration error
already when only the url field fails schema validation — the config's single
schema issue names the url path, while the apiKey field passes — contradicting
the claim that construction fails only when both fields fail validation. -/
theorem C8_single_field_failure_rejects :
    exKind (sisenseServiceInit (some "not-a-url") (some "k") none none) = some .configuration ∧
    sisenseConfigSchema (.obj [("url", .str "not-a-url"), ("apiKey", .str "k")]) =
      .error [⟨["url"], "Invalid Sisense URL", "invalid_string"⟩] :=
  ⟨rfl, rfl⟩

/-- Claim C8 (amended): construction with at least one of url/apiKey empty
always succeeds, producing an unconfigured instance; when both are non-empty
construction fails with a Configuration error exactly when the configuration
fails schema validation, which with non-empty fields means the url is not a
valid URL (a single failing field suffices). -/
theorem C8_constructor_partial_config (u k : String) :
    (u = "" ∨ k = "" → sisenseServiceInit (some u) (some k) none none = .ok ⟨u, k⟩) ∧
    (u = "" ∨ k = "" → SisenseConfig.isConfigured ⟨u, k⟩ = false) ∧
    (u ≠ "" → k ≠ "" → isValidUrl u = false →
      exKind (sisenseServiceInit (some u) (some k) none none) = some .configuration) ∧
    (u ≠ "" → k ≠ "" → isValidUrl u = true →
      sisenseServiceInit (some u) (some k) none none = .ok ⟨u, k⟩) := by
  refine ⟨?_, ?_, ?_, ?_⟩
  · intro h
    rcases h with h | h <;> simp [sisenseServiceInit, h]
  · intro h
    rcases h with h | h <;> simp [SisenseConfig.isConfigured, h]
  · intro hu hk hurl
    simp [sisenseServiceInit, hu, hk, validateSisenseConfig, validateInput,
      sisenseConfigSchema, getField, assocLookup, hurl, exKind]
  · intro hu hk hurl
    simp [sisenseServiceInit, hu, hk, validateSisenseConfig, validateInput,
      sisenseConfigSchema, getField, assocLookup, hurl]

/-- Claim C8 witness: an empty url with a non-empty key constructs an
unconfigured instance. -/
theorem C8_constructor_partial_config_witness :
    sisenseServiceInit (some "") (some "key") none none = .ok ⟨"", "key"⟩ ∧
    SisenseConfig.isConfigured ⟨"", "key"⟩ = false :=
  ⟨(C8_constructor_partial_config "" "key").1 (.inl rfl),
   (C8_constructor_partial_config "" "key").2.1 (.inl rfl)⟩

/-- Claim C9 counterexample: the URI foo://dashboard/123 has third slash
segment dashboard and non-empty fourth segment 123, yet readResource rejects
it at the scheme gate without fetching anything, contradicting the claim's
quantification over every such URI. -/
theorem C9_scheme_gate_blocks_fetch :
    (jsSplit "foo://dashboard/123" '/')[2]? = some "dashboard" ∧
    (jsSplit "foo://dashboard/123" '/')[3]? = some "123" ∧
    readResource svcStub "foo://dashboard/123" =
      (.error (.other "Error" "Unsupported resource URI: foo://dashboard/123"), []) :=
  ⟨rfl, rfl, rfl⟩

/-- Claim C9 (amended): for every URI that starts with sisense:// and whose
slash-split has third segment dashboard and a non-empty fourth segment,
readResource fetches the dashboard whose id is that fourth segment — the
Validator's URI regex is never applied, so ids with characters the regex
rejects are fetched, and segments after the id are ignored. -/
theorem C9_read_resource_no_regex (svc : ServiceOracle) (uri id : String)
    (h0 : jsStartsWith "sisense://" uri = true)
    (h2 : (jsSplit uri '/')[2]? = some "dashboard")
    (h3 : (jsSplit uri '/')[3]? = some id)
    (hid : id ≠ "") :
    (readResource svc uri).2 = [.dashboard id] ∧
    (∀ d, svc.dashboard id = .ok d →
      (readResource svc uri).1 =
        .ok { contents := [{ uri := uri, mimeType := "application/json"
                             text := safeStringifyTree d (some 2) }] }) ∧
    (∀ e, svc.dashboard id = .error e → (readResource svc uri).1 = .error e) ∧
    matchesResourceUri "sisense://dashboard/a.b" = false ∧
    (readResource svc "sisense://dashboard/a.b").2 = [.dashboard "a.b"] ∧
    (readResource svc "sisense://dashboard/123/extra").2 = [.dashboard "123"] := by
  have hr : readResource svc uri =
      (match svc.dashboard id with
       | .error e => (.error e, [.dashboard id])
       | .ok data =>
         (.ok { contents := [{ uri := uri, mimeType := "application/json"
                               text := safeStringifyTree data (some 2) }] },
          [.dashboard id])) := by
    simp [readResource, h0, h2, h3, hid]
  refine ⟨?_, ?_, ?_, by decide, ?_, ?_⟩
  · rw [hr]
    cases svc.dashboard id <;> rfl
  · intro d hd
    rw [hr, hd]
  · intro e he
    rw [hr, he]
  · have h : readResource svc "sisense://dashboard/a.b" =
        (match svc.dashboard "a.b" with
         | .error e => (.error e, [.dashboard "a.b"])
         | .ok data =>
           (.ok { contents := [{ uri := "sisense://dashboard/a.b"
                                 mimeType := "application/json"
                                 text := safeStringifyTree data (some 2) }] },
            [.dashboard "a.b"])) := rfl
    rw [h]
    cases svc.dashboard "a.b" <;> rfl
  · have h : readResource svc "sisense://dashboard/123/extra" =
        (match svc.dashboard "123" with
         | .error e => (.error e, [.dashboard "123"])
         | .ok data =>
           (.ok { contents := [{ uri := "sisense://dashboard/123/extra"
                                 mimeType := "application/json"
                                 text := safeStringifyTree data (some 2) }] },
            [.dashboard "123"])) := rfl
    rw [h]
    cases svc.dashboard "123" <;> rfl

/-- Claim C9 witness: the amended theorem at the dotted id a.b, which the
resource URI regex rejects but readResource fetches. -/
theorem C9_read_resource_no_regex_witness :
    (readResource svcStub "sisense://dashboard/a.b").2 = [.dashboard "a.b"] ∧
    matchesResourceUri "sisense://dashboard/a.b" = false :=
  ⟨(C9_read_resource_no_regex svcStub "sisense://dashboard/a.b" "a.b"
      rfl rfl rfl (by decide)).1,
   (C9_read_resource_no_regex svcStub "sisense://dashboard/a.b" "a.b"
      rfl rfl rfl (by decide)).2.2.2.1⟩

/-- Claim C10: at the tool-call boundary an empty-string id is
indistinguishable from a missing one — the three id-taking tools fail at the
presence gate with the is-required error and invoke no service method, so the
empty string never reaches the Validator and no Validation-typed error
arises on this path. -/
theorem C10_empty_id_indistinguishable (svc : ServiceOracle) :
    callTool svc "get_dashboard" [("dashboardId", .str "")] =
      callTool svc "get_dashboard" [] ∧
    callTool svc "get_dashboard" [] =
      (.error (.other "Error" "dashboardId is required and must be a string"), []) ∧
    callTool svc "get_dashboard_widgets" [("dashboardId", .str "")] =
      callTool svc "get_dashboard_widgets" [] ∧
    callTool svc "get_dashboard_widgets" [] =
      (.error (.other "Error" "dashboardId is required and must be a string"), []) ∧
    callTool svc "get_cube_metadata" [("cubeId", .str "")] =
      callTool svc "get_cube_metadata" [] ∧
    callTool svc "get_cube_metadata" [] =
      (.error (.other "Error" "cubeId is required and must be a string"), []) :=
  ⟨rfl, rfl, rfl, rfl, rfl, rfl⟩

/-- Claim C7: safeStringify is total — the guarded serialization succeeds on
every heap value including cyclic graphs (so the function returns a string
and never reaches its error fallback); a revisited object degrades to the
Circular Reference marker (shown on the cyclic self-referencing object);
top-level functions and symbols render as their bracketed typeof markers and
null/undefined via String coercion; and on every plain acyclic JSON tree it
agrees with ordinary JSON.stringify at the given indent. -/
theorem C7_safe_stringify_total_and_faithful :
    (∀ (h : Heap) (v : HVal) (space : Option Nat),
      ∃ s seen1, serGo h (gapOf space) (serFuel h) [] "" (.val v) = some (.one s, seen1)) ∧
    safeStringify [HObj.hobj [("name", .hstr "test"), ("self", .href 0)]] (.href 0) none =
      "\x7b\"name\":\"test\",\"self\":\"[Circular Reference]\"\x7d" ∧
    (∀ (h : Heap) (space : Option Nat),
      safeStringify h .hfunc space = "[function]" ∧
      safeStringify h .hsym space = "[symbol]" ∧
      safeStringify h .undef space = "undefined" ∧
      safeStringify h .hnull space = "null") ∧
    (∀ (j : JsValue) (space : Option Nat) (s : String),
      jsonStringify j space = some s → safeStringifyTree j space = s) := by
  refine ⟨?_, rfl, fun h space => ⟨rfl, rfl, rfl, rfl⟩, ?_⟩
  · intro h v space
    exact serGo_total h (gapOf space) v ""
  · intro j space s hs
    cases j with
    | undef => simp [jsonStringify, stringifyVal] at hs
    | null =>
      have hs2 : some "null" = some s := hs
      simp only [Option.some.injEq] at hs2
      rw [← hs2]
      rfl
    | bool b =>
      have hs2 : some (if b then "true" else "false") = some s := hs
      simp only [Option.some.injEq] at hs2
      rw [← hs2]
      rfl
    | num n =>
      have hs2 : some (toString n) = some s := hs
      simp only [Option.some.injEq] at hs2
      rw [← hs2]
      rfl
    | str s2 =>
      have hs2 : some (quoteStr s2) = some s := hs
      simp only [Option.some.injEq] at hs2
      rw [← hs2]
      rfl
    | arr xs =>
      obtain ⟨s0, seen1, htot⟩ :=
        serGo_total (encHeap (.arr xs) 0) (gapOf space) (.href 0) ""
      have henc : EncAt (encHeap (.arr xs) 0) (.arr xs) 0 := fun i hi => by simp
      have hrf : RegionFree [] 0 (encSize (.arr xs)) :=
        fun a _ _ hmem => (List.not_mem_nil a hmem)
      have hag := (serGo_enc_agree (serFuel (encHeap (.arr xs) 0)) (encHeap (.arr xs) 0)
        (gapOf space) [] "").1 (.arr xs) 0 (.one s0, seen1) henc hrf htot
      have hs0 : s0 = stringifyVal (gapOf space) "" (.arr xs) := by
        have h1 := hag.1
        simpa using h1
      have hseq : s0 = some s := by
        rw [hs0]
        exact hs
      have hfin : safeStringifyTree (.arr xs) space =
          (match serGo (encHeap (.arr xs) 0) (gapOf space)
              (serFuel (encHeap (.arr xs) 0)) [] "" (.val (.href 0)) with
           | some (.one (some s1), _) => s1
           | some _ => "undefined"
           | none => "[Error stringifying data: Unknown error]") := rfl
      rw [hfin, htot, hseq]
    | obj fs =>
      obtain ⟨s0, seen1, htot⟩ :=
        serGo_total (encHeap (.obj fs) 0) (gapOf space) (.href 0) ""
      have henc : EncAt (encHeap (.obj fs) 0) (.obj fs) 0 := fun i hi => by simp
      have hrf : RegionFree [] 0 (encSize (.obj fs)) :=
        fun a _ _ hmem => (List.not_mem_nil a hmem)
      have hag := (serGo_enc_agree (serFuel (encHeap (.obj fs) 0)) (encHeap (.obj fs) 0)
        (gapOf space) [] "").1 (.obj fs) 0 (.one s0, seen1) henc hrf htot
      have hs0 : s0 = stringifyVal (gapOf space) "" (.obj fs) := by
        have h1 := hag.1
        simpa using h1
      have hseq : s0 = some s := by
        rw [hs0]
        exact hs
      have hfin : safeStringifyTree (.obj fs) space =
          (match serGo (encHeap (.obj fs) 0) (gapOf space)
              (serFuel (encHeap (.obj fs) 0)) [] "" (.val (.href 0)) with
           | some (.one (some s1), _) => s1
           | some _ => "undefined"
           | none => "[Error stringifying data: Unknown error]") := rfl
      rw [hfin, htot, hseq]

/-- Claim C7 witness: the agreement conjunct evaluated at a concrete nested
value with the dispatcher's 2-space indent. -/
theorem C7_safe_stringify_total_and_faithful_witness :
    safeStringifyTree (.obj [("a", .num 1), ("b", .arr [.bool true, .null])]) (some 2) =
      "\x7b\n  \"a\": 1,\n  \"b\": [\n    true,\n    null\n  ]\n\x7d" :=
  C7_safe_stringify_total_and_faithful.2.2.2
    (.obj [("a", .num 1), ("b", .arr [.bool true, .null])]) (some 2)
    "\x7b\n  \"a\": 1,\n  \"b\": [\n    true,\n    null\n  ]\n\x7d" rfl

end Sisense
